import Mathlib

/-!
# The hyphen FFI wrappers

A shallow embedding of the foreign-function glue of the `hyphen` repository:

* `hyphen_ffi.c`   : the four wrapper functions `hyphen_load`, `hyphen_free`,
  `hyphen_hyphenate2`, `hyphen_hyphenate3`;
* `hyphen_ffi.h`, `web_helper.c`, `force_link.c` : the declarations that make up
  the exported surface.

The hyphenation engine itself (`hnj_hyphen_*`, `hyphen_lib/hyphen.h`) is not part of
the sources at hand.  The wrappers are therefore embedded over an arbitrary `Engine`;
a second engine, `specEngine`, follows the design document and is used where a
property is about what the engine computes.
-/

namespace Hyphen

/-! ## Memory, calls and the engine interface -/

/-- A C pointer, as an address; address `0` is the null pointer. -/
abbrev Ptr := Nat

/-- The null pointer. -/
def NULL : Ptr := 0

/-- Modelled from the spec: a Pattern of the dictionary type (declared in `hyphen_lib/hyphen.h`,
missing): its letters and the weight of every gap, `weights[j]` being
the weight of the gap in front of letter `j` and the last entry the weight behind the last
letter (`1ab2c3` is letters `abc`, weights `1,0,2,3`). -/
structure Pattern where
  letters : List Nat
  weights : List Nat

/-- Modelled from the spec: an Exception Entry of the dictionary type (declared in
`hyphen_lib/hyphen.h`, missing): a literal word and its explicit break flags. -/
structure ExceptionEntry where
  word : List Nat
  mask : List Bool

/-- Modelled from the spec: the type `HyphenDict` declared in `hyphen_lib/hyphen.h`, which is
missing.  The fields are the Dictionary of the design document (its patterns, its exception
set, the case folding of its declared encoding and its default margins), together
with the one member the sources read, `utf8` (`web_helper.c`). -/
structure HyphenDict where
  utf8 : Int
  patterns : List Pattern
  exceptions : List ExceptionEntry
  fold : Nat → Nat
  lhmin : Int
  rhmin : Int
  clhmin : Int
  crhmin : Int

/-- The part of the machine the wrappers and the engine act on: byte-addressed memory, the
heap blocks that are allocated and not yet released, and the dictionaries that are loaded,
by handle. -/
structure World where
  bytes : Ptr → Nat
  live : List Ptr
  dicts : Ptr → Option HyphenDict

/-- An argument of pointer-to-output type (`char ***rep`, `int **pos`, `int **cut`): either a
null pointer, or the address of a variable, given by the value that variable holds when the
call is made. -/
inductive OutLoc where
  | null : OutLoc
  | addr (held : Ptr) : OutLoc
  deriving DecidableEq, Repr

/-- What a call of `hnj_hyphen_hyphenate2` / `hnj_hyphen_hyphenate3` leaves behind: the
returned integer, the values held afterwards by the variables whose addresses were passed
as `rep`, `pos` and `cut`, and the world. -/
structure HyphenateRet where
  result : Int
  rep : Ptr
  pos : Ptr
  cut : Ptr
  world : World

/-- The functions of the hyphenation library that `hyphen_ffi.c` calls.  Their bodies are not
among the sources, so each is an arbitrary function of the world and its arguments. -/
structure Engine where
  hnj_hyphen_load : World → Ptr → Ptr × World
  hnj_hyphen_free : World → Ptr → World
  hnj_hyphen_hyphenate2 : World → Ptr → Ptr → Int → Ptr → Ptr →
    OutLoc → OutLoc → OutLoc → HyphenateRet
  hnj_hyphen_hyphenate3 : World → Ptr → Ptr → Int → Ptr → Ptr →
    OutLoc → OutLoc → OutLoc → Int → Int → Int → Int → HyphenateRet

/-- A call that leaves `hyphen_ffi.c`, with its actual arguments. -/
inductive Call where
  | hnj_hyphen_load (filename : Ptr) : Call
  | hnj_hyphen_free (dict : Ptr) : Call
  | hnj_hyphen_hyphenate2 (dict word : Ptr) (word_size : Int) (hyphens hyphenated_word : Ptr)
      (rep pos cut : OutLoc) : Call
  | hnj_hyphen_hyphenate3 (dict word : Ptr) (word_size : Int) (hyphens hyphenated_word : Ptr)
      (rep pos cut : OutLoc) (lhmin rhmin clhmin crhmin : Int) : Call
  | free (p : Ptr) : Call
  deriving DecidableEq, Repr

/-- The state a wrapper runs in: the world, and the calls made so far, oldest first. -/
structure State where
  world : World
  calls : List Call

/-- The C library's `free` on the world: `free(NULL)` does nothing, any other block is no
longer live.  Memory contents are not written. -/
def freeBlock (w : World) (p : Ptr) : World :=
  if p = NULL then w else { w with live := w.live.filter (fun q => q ≠ p) }

/-- Calling `hnj_hyphen_load(filename)`. -/
def call_hnj_hyphen_load (E : Engine) (filename : Ptr) (s : State) : Ptr × State :=
  let r := E.hnj_hyphen_load s.world filename
  (r.1, { world := r.2, calls := s.calls ++ [Call.hnj_hyphen_load filename] })

/-- Calling `hnj_hyphen_free(dict)`. -/
def call_hnj_hyphen_free (E : Engine) (dict : Ptr) (s : State) : State :=
  { world := E.hnj_hyphen_free s.world dict, calls := s.calls ++ [Call.hnj_hyphen_free dict] }

/-- Calling `hnj_hyphen_hyphenate2(dict, word, word_size, hyphens, hyphenated_word, rep, pos,
cut)`. -/
def call_hnj_hyphen_hyphenate2 (E : Engine) (dict word : Ptr) (word_size : Int)
    (hyphens hyphenated_word : Ptr) (rep pos cut : OutLoc) (s : State) :
    HyphenateRet × State :=
  let r := E.hnj_hyphen_hyphenate2 s.world dict word word_size hyphens hyphenated_word
    rep pos cut
  (r, { world := r.world,
        calls := s.calls ++ [Call.hnj_hyphen_hyphenate2 dict word word_size hyphens
          hyphenated_word rep pos cut] })

/-- Calling `hnj_hyphen_hyphenate3(dict, word, word_size, hyphens, hyphenated_word, rep, pos,
cut, lhmin, rhmin, clhmin, crhmin)`. -/
def call_hnj_hyphen_hyphenate3 (E : Engine) (dict word : Ptr) (word_size : Int)
    (hyphens hyphenated_word : Ptr) (rep pos cut : OutLoc) (lhmin rhmin clhmin crhmin : Int)
    (s : State) : HyphenateRet × State :=
  let r := E.hnj_hyphen_hyphenate3 s.world dict word word_size hyphens hyphenated_word
    rep pos cut lhmin rhmin clhmin crhmin
  (r, { world := r.world,
        calls := s.calls ++ [Call.hnj_hyphen_hyphenate3 dict word word_size hyphens
          hyphenated_word rep pos cut lhmin rhmin clhmin crhmin] })

/-- Calling `free(p)`. -/
def call_free (p : Ptr) (s : State) : State :=
  { world := freeBlock s.world p, calls := s.calls ++ [Call.free p] }

/-! ## The wrappers of `hyphen_ffi.c` -/

/-- `HyphenDict *hyphen_load(const char *filename)`. -/
def hyphen_load (E : Engine) (filename : Ptr) (s : State) : Ptr × State :=
  call_hnj_hyphen_load E filename s

/-- `void hyphen_free(HyphenDict *dict)`. -/
def hyphen_free (E : Engine) (dict : Ptr) (s : State) : State :=
  call_hnj_hyphen_free E dict s

/-- `int hyphen_hyphenate2(HyphenDict *dict, const char *word, int word_size,
char *hyphens)`. -/
def hyphen_hyphenate2 (E : Engine) (dict word : Ptr) (word_size : Int) (hyphens : Ptr)
    (s : State) : Int × State :=
  let rep : Ptr := NULL
  let pos : Ptr := NULL
  let cut : Ptr := NULL
  let r := call_hnj_hyphen_hyphenate2 E dict word word_size hyphens NULL
    (OutLoc.addr rep) (OutLoc.addr pos) (OutLoc.addr cut) s
  let result : Int := r.1.result
  let rep : Ptr := r.1.rep
  let pos : Ptr := r.1.pos
  let cut : Ptr := r.1.cut
  let s := call_free rep r.2
  let s := call_free pos s
  let s := call_free cut s
  (result, s)

/-- `int hyphen_hyphenate3(HyphenDict *dict, const char *word, int word_size, char *hyphens,
int lhmin, int rhmin, int clhmin, int crhmin)`. -/
def hyphen_hyphenate3 (E : Engine) (dict word : Ptr) (word_size : Int) (hyphens : Ptr)
    (lhmin rhmin clhmin crhmin : Int) (s : State) : Int × State :=
  let rep : Ptr := NULL
  let pos : Ptr := NULL
  let cut : Ptr := NULL
  let r := call_hnj_hyphen_hyphenate3 E dict word word_size hyphens NULL
    (OutLoc.addr rep) (OutLoc.addr pos) (OutLoc.addr cut) lhmin rhmin clhmin crhmin s
  let result : Int := r.1.result
  let rep : Ptr := r.1.rep
  let pos : Ptr := r.1.pos
  let cut : Ptr := r.1.cut
  let s := call_free rep r.2
  let s := call_free pos s
  let s := call_free cut s
  (result, s)

/-- `int hyphen_dict_get_utf8(const HyphenDict* p) { return p->utf8; }` of `web_helper.c`;
there is no result when `p` is not a dictionary. -/
def hyphen_dict_get_utf8 (w : World) (p : Ptr) : Option Int :=
  (w.dicts p).map (fun d => d.utf8)

/-- The `count` bytes of memory that start at `p`. -/
def readBytes (w : World) (p : Ptr) (count : Nat) : List Nat :=
  (List.range count).map (fun i => w.bytes (p + i))

/-! ## The engine of the design document

The hyphenation engine behind `hnj_hyphen_hyphenate2` and `hnj_hyphen_hyphenate3` is
given here as the design document describes its Hyphenator (pattern scan with
max-wins merge, margin enforcement, mask emission). -/

/-- Modelled from the spec: the boundary symbol the engine (missing) pads a word with on
both ends, the dot of the Liang convention. -/
def boundarySymbol : Nat := 46

/-- Modelled from the spec: the compound boundary marker the engine (missing) looks for inside
a word, the hyphen. -/
def compoundMarker : Nat := 45

/-- Modelled from the spec: padding of a word with the boundary symbol on both ends, done by
the engine (missing) before the pattern scan. -/
def pad (w : List Nat) : List Nat :=
  boundarySymbol :: (w ++ [boundarySymbol])

/-- Modelled from the spec: the engine's test (missing) that `letters` stands at the start of
`text`. -/
def startsWith : List Nat → List Nat → Bool
  | _, [] => true
  | [], _ :: _ => false
  | t :: ts, l :: ls => t == l && startsWith ts ls

/-- Modelled from the spec: the engine's test (missing) that pattern `p` matches the substring
of the padded word that begins at offset `k`. -/
def matchesAt (p : Pattern) (padded : List Nat) (k : Nat) : Bool :=
  startsWith (padded.drop k) p.letters

/-- Modelled from the spec: one merge step of the engine (missing), raising each running weight
to the weight a pattern brings for the same gap. -/
def zipMax : List Nat → List Nat → List Nat
  | [], _ => []
  | x :: xs, [] => x :: xs
  | x :: xs, y :: ys => max x y :: zipMax xs ys

/-- Modelled from the spec: the merge of the engine (missing) of a pattern's weight sequence
`pw` into the running weights `ws`, aligned at offset `k`. -/
def mergeAt : List Nat → Nat → List Nat → List Nat
  | ws, 0, pw => zipMax ws pw
  | [], _ + 1, _ => []
  | x :: ws, k + 1, pw => x :: mergeAt ws k pw

/-- Modelled from the spec: the engine's scan (missing) of the padded word for one pattern, at
every offset, merging the pattern's weights wherever it matches. -/
def scanPattern (padded : List Nat) (ws : List Nat) (p : Pattern) : List Nat :=
  (List.range (padded.length + 1)).foldl
    (fun acc k => if matchesAt p padded k then mergeAt acc k p.weights else acc) ws

/-- Modelled from the spec: the pattern scan of the engine (missing), step 4 of the
Hyphenator: every pattern of the dictionary is scanned over the padded word, starting
from weight 0 in every gap; entry `g` is the merged weight of the gap in front of the
padded word's symbol `g`. -/
def mergeWeights (d : HyphenDict) (padded : List Nat) : List Nat :=
  d.patterns.foldl (scanPattern padded) (List.replicate (padded.length + 1) 0)

/-- In the words of the design document's merge rule, the weights that pattern `p`
contributes to gap `g` of the padded word: for every offset
at which `p` matches a substring, the weight `p` carries for that gap, if it carries one. -/
def patternContributions (p : Pattern) (padded : List Nat) (g : Nat) : List Nat :=
  (List.range (padded.length + 1)).filterMap
    (fun k => if matchesAt p padded k && decide (k ≤ g) then p.weights[g - k]? else none)

/-- In the words of the design document's merge rule, the weights contributed to gap `g` of
the padded word by all patterns of the dictionary that match a substring of it. -/
def contributions (d : HyphenDict) (padded : List Nat) (g : Nat) : List Nat :=
  d.patterns.flatMap (fun p => patternContributions p padded g)

/-- The maximum of a list of weights, `0` for the empty list. -/
def maxWeight (cs : List Nat) : Nat :=
  cs.foldr max 0

/-- Modelled from the spec: step 1 of the Hyphenator (engine missing), folding every letter of
the word by the rule of the dictionary's declared encoding. -/
def normalize (d : HyphenDict) (word : List Nat) : List Nat :=
  word.map d.fold

/-- Modelled from the spec: step 2 of the Hyphenator (engine missing), the explicit mask of the
exception entry for the normalized word, if the exception set has one. -/
def exceptionMask (d : HyphenDict) (w : List Nat) : Option (List Bool) :=
  (d.exceptions.find? (fun e => e.word == w)).map (fun e => e.mask)

/-- Modelled from the spec: the weight the pattern scan of the engine (missing) gives every
inter-letter position of the normalized word `w`, before margins are enforced.  Position
`i` lies between letters `i` and `i + 1`, which is gap `i + 2` of the padded word. -/
def positionWeights (d : HyphenDict) (w : List Nat) : List Nat :=
  (List.range (w.length - 1)).map (fun i => (mergeWeights d (pad w)).getD (i + 2) 0)

/-- Modelled from the spec: the compound margins of the engine (missing), steps 3 and 5 of the
Hyphenator.  For every compound marker strictly inside the word, a break behind the
marker keeps at least `clhmin` letters between marker and break, a break in front of
it at least `crhmin` letters between break and marker. -/
def compoundOk (w : List Nat) (clhmin crhmin : Int) (i : Nat) : Bool :=
  (List.range w.length).all (fun b =>
    if w.getD b 0 == compoundMarker && decide (0 < b) && decide (b + 1 < w.length) then
      if b ≤ i then decide (clhmin ≤ (i : Int) - (b : Int))
      else decide (crhmin ≤ (b : Int) - (i : Int) - 1)
    else true)

/-- Modelled from the spec: the margin test of the engine (missing), step 5 of the Hyphenator.
A break at position `i` has `i + 1` letters in front of it and `length - (i + 1)` behind
it; it is kept when these are at least `lhmin` and `rhmin` and the compound margins
hold. -/
def marginOk (w : List Nat) (lhmin rhmin clhmin crhmin : Int) (i : Nat) : Bool :=
  decide (lhmin ≤ (i : Int) + 1) && decide (rhmin ≤ (w.length : Int) - ((i : Int) + 1))
    && compoundOk w clhmin crhmin i

/-- Modelled from the spec: margin enforcement of the engine (missing), step 5 of the
Hyphenator: the weight of every position that fails the margin test is zeroed. -/
def enforceMargins (w : List Nat) (lhmin rhmin clhmin crhmin : Int) (ws : List Nat) :
    List Nat :=
  (List.range (w.length - 1)).map
    (fun i => if marginOk w lhmin rhmin clhmin crhmin i then ws.getD i 0 else 0)

/-- Modelled from the spec: mask emission of the engine (missing), step 6 of the Hyphenator:
an odd weight allows the break, an even weight suppresses it. -/
def emitMask (ws : List Nat) : List Bool :=
  ws.map (fun x => x % 2 == 1)

/-- Modelled from the spec: the Hyphenator of the engine (missing), steps 1 to 6, on the
letters of a word.  The word is normalized; if the exception set has an entry for it, the
explicit mask of that entry is returned directly, with no pattern matching and no margin
enforcement; otherwise the merged weights of the pattern scan go through margin
enforcement and mask emission, one flag per inter-letter position. -/
def hyphenate (d : HyphenDict) (word : List Nat) (lhmin rhmin clhmin crhmin : Int) :
    List Bool :=
  let w := normalize d word
  match exceptionMask d w with
  | some m => m
  | none => emitMask (enforceMargins w lhmin rhmin clhmin crhmin (positionWeights d w))

/-- Modelled from the spec: the byte the engine (missing) stores for a flag of the break mask,
`1` for a permitted break and `0` for a suppressed one. -/
def flagByte (b : Bool) : Nat :=
  if b then 1 else 0

/-- Storing the bytes `xs` in memory from address `p` on. -/
def writeBytes (w : World) (p : Ptr) (xs : List Nat) : World :=
  { w with bytes := fun a => if p ≤ a ∧ a - p < xs.length then xs.getD (a - p) 0 else w.bytes a }

/-- The value held by the variable behind an output argument (`NULL` when there is none). -/
def OutLoc.value : OutLoc → Ptr
  | OutLoc.null => NULL
  | OutLoc.addr v => v

/-- Modelled from the spec: the test of the engine (missing) for a continuation byte of a
UTF-8 sequence. -/
def isContinuation (b : Nat) : Bool :=
  decide (128 ≤ b) && decide (b < 192)

/-- Modelled from the spec: the UTF-8 decoding of the engine (missing), from the bytes of a word
to its letters, one code point per letter; there is no result when the bytes are not
well-formed (a stray continuation byte, a sequence cut short, an impossible lead byte). -/
def utf8Decode : List Nat → Option (List Nat)
  | [] => some []
  | b :: bs =>
    if b < 128 then (utf8Decode bs).map (fun ls => b :: ls)
    else if b < 192 then none
    else if b < 224 then
      match bs with
      | c1 :: rest =>
        if isContinuation c1 then
          (utf8Decode rest).map (fun ls => ((b % 32) * 64 + c1 % 64) :: ls)
        else none
      | _ => none
    else if b < 240 then
      match bs with
      | c1 :: c2 :: rest =>
        if isContinuation c1 && isContinuation c2 then
          (utf8Decode rest).map (fun ls => (((b % 16) * 64 + c1 % 64) * 64 + c2 % 64) :: ls)
        else none
      | _ => none
    else if b < 248 then
      match bs with
      | c1 :: c2 :: c3 :: rest =>
        if isContinuation c1 && isContinuation c2 && isContinuation c3 then
          (utf8Decode rest).map
            (fun ls => ((((b % 8) * 64 + c1 % 64) * 64 + c2 % 64) * 64 + c3 % 64) :: ls)
        else none
      | _ => none
    else none

/-- Modelled from the spec: the letters the engine (missing) reads from the bytes of a word
under the dictionary's declared encoding: the code points of the UTF-8 text when the
dictionary's `utf8` member is set, one letter per byte otherwise. -/
def decodeLetters (d : HyphenDict) (bs : List Nat) : Option (List Nat) :=
  if d.utf8 = 0 then some bs else utf8Decode bs

/-- Modelled from the spec: `hnj_hyphen_hyphenate3` of the engine (missing), the operation
`hyphenate_with_margins` of the foreign-function boundary.  A handle that names no loaded
dictionary, a negative length and bytes that do not decode are malformed input, and a
word with no letter is the error EmptyWord: each gives a negative code with nothing
written.  Otherwise the break mask of the letters read from the `word_size` bytes at
`word`, under the given margins, is stored at `hyphens` and the code is `0`.  The
dictionaries of this model define no orthographic substitutions, so there are no
replacement hints to emit and `rep`, `pos`, `cut` keep their values; the hyphenated form
is not written. -/
def spec_hnj_hyphen_hyphenate3 (w : World) (dict word : Ptr) (word_size : Int)
    (hyphens _hyphenated_word : Ptr) (rep pos cut : OutLoc)
    (lhmin rhmin clhmin crhmin : Int) : HyphenateRet :=
  match w.dicts dict with
  | none => { result := -1, rep := rep.value, pos := pos.value, cut := cut.value, world := w }
  | some d =>
    if word_size < 0 then
      { result := -1, rep := rep.value, pos := pos.value, cut := cut.value, world := w }
    else
      match decodeLetters d (readBytes w word word_size.toNat) with
      | none =>
        { result := -1, rep := rep.value, pos := pos.value, cut := cut.value, world := w }
      | some letters =>
        if letters.isEmpty then
          { result := -1, rep := rep.value, pos := pos.value, cut := cut.value, world := w }
        else
          let mask := hyphenate d letters lhmin rhmin clhmin crhmin
          { result := 0, rep := rep.value, pos := pos.value, cut := cut.value,
            world := writeBytes w hyphens (mask.map flagByte) }

/-- Modelled from the spec: `hnj_hyphen_hyphenate2` of the engine (missing), the operation
`hyphenate` of the foreign-function boundary: as `spec_hnj_hyphen_hyphenate3`, with the
default margins of the dictionary. -/
def spec_hnj_hyphen_hyphenate2 (w : World) (dict word : Ptr) (word_size : Int)
    (hyphens hyphenated_word : Ptr) (rep pos cut : OutLoc) : HyphenateRet :=
  match w.dicts dict with
  | none => { result := -1, rep := rep.value, pos := pos.value, cut := cut.value, world := w }
  | some d =>
    spec_hnj_hyphen_hyphenate3 w dict word word_size hyphens hyphenated_word rep pos cut
      d.lhmin d.rhmin d.clhmin d.crhmin

/-- Modelled from the spec: the engine (missing) as the design document describes it.  The
dictionary loader and the release of a dictionary are left open. -/
def specEngine (load : World → Ptr → Ptr × World) (release : World → Ptr → World) : Engine :=
  { hnj_hyphen_load := load
    hnj_hyphen_free := release
    hnj_hyphen_hyphenate2 := spec_hnj_hyphen_hyphenate2
    hnj_hyphen_hyphenate3 := spec_hnj_hyphen_hyphenate3 }

/-- Two runs of an engine call, `r` started in world `w` and `r'` in another world, agree: they
return the same code, and each of the `m` bytes at `hyphens` is either the same after both
runs or was left by the run as it found it. -/
def SameOutcome (w : World) (r r' : HyphenateRet) (hyphens : Ptr) (m : Nat) : Prop :=
  r.result = r'.result
    ∧ ∀ j, j < m →
      (r.world.bytes (hyphens + j) = r'.world.bytes (hyphens + j)
        ∨ r.world.bytes (hyphens + j) = w.bytes (hyphens + j))

/-- The engine call is a function of its arguments and of the dictionary and the word they
name: in two worlds that hold the same dictionary under `dict` and the same `word_size`
bytes at `word`, the call returns the same code and stores the same break mask at
`hyphens`; a byte it does not store it leaves as it was. -/
def Engine.FunctionOfInputs (E : Engine) : Prop :=
  ∀ (w w' : World) (dict word : Ptr) (word_size : Int) (hyphens hyphenated_word : Ptr)
    (rep pos cut : OutLoc),
    w.dicts dict = w'.dicts dict →
    readBytes w word word_size.toNat = readBytes w' word word_size.toNat →
    SameOutcome w
        (E.hnj_hyphen_hyphenate2 w dict word word_size hyphens hyphenated_word rep pos cut)
        (E.hnj_hyphen_hyphenate2 w' dict word word_size hyphens hyphenated_word rep pos cut)
        hyphens (word_size.toNat - 1)
    ∧ ∀ lhmin rhmin clhmin crhmin : Int,
      SameOutcome w
        (E.hnj_hyphen_hyphenate3 w dict word word_size hyphens hyphenated_word rep pos cut
          lhmin rhmin clhmin crhmin)
        (E.hnj_hyphen_hyphenate3 w' dict word word_size hyphens hyphenated_word rep pos cut
          lhmin rhmin clhmin crhmin)
        hyphens (word_size.toNat - 1)

/-- The letters the engine works on: those read from the `word_size` bytes at `word` under the
dictionary's encoding, normalized by the dictionary; none when the bytes do not decode. -/
def lettersAt (w : World) (d : HyphenDict) (word : Ptr) (word_size : Int) : List Nat :=
  match decodeLetters d (readBytes w word word_size.toNat) with
  | some letters => normalize d letters
  | none => []

/-- Whether a call asks the engine for replacement hints or the hyphenated word: an engine
call that is given a hyphenated-word buffer or an output location for `rep`, `pos` or
`cut`. -/
def Call.requestsHints : Call → Bool
  | Call.hnj_hyphen_hyphenate2 _ _ _ _ hyphenated_word rep pos cut =>
      decide (hyphenated_word ≠ NULL) || decide (rep ≠ OutLoc.null)
        || decide (pos ≠ OutLoc.null) || decide (cut ≠ OutLoc.null)
  | Call.hnj_hyphen_hyphenate3 _ _ _ _ hyphenated_word rep pos cut _ _ _ _ =>
      decide (hyphenated_word ≠ NULL) || decide (rep ≠ OutLoc.null)
        || decide (pos ≠ OutLoc.null) || decide (cut ≠ OutLoc.null)
  | _ => false

/-! ## The exported surface -/

/-- The functions the wrapper sources define. -/
inductive Symbol where
  | hyphen_load : Symbol
  | hyphen_free : Symbol
  | hyphen_hyphenate2 : Symbol
  | hyphen_hyphenate3 : Symbol
  | hyphen_dict_get_utf8 : Symbol
  deriving DecidableEq, Repr

/-- A build configuration: which of the preprocessor symbols the sources test are defined
(`__EMSCRIPTEN__`, `_WIN32`, `__cplusplus`). -/
structure BuildConfig where
  emscripten : Bool
  win32 : Bool
  cplusplus : Bool
  deriving DecidableEq, Repr

/-- The functions `web_helper.c` defines, marked `EMSCRIPTEN_KEEPALIVE`. -/
def web_helper_c : List Symbol :=
  [Symbol.hyphen_dict_get_utf8]

/-- The functions `hyphen_ffi.c` defines, each marked `FFI_EXPORT`, in source order. -/
def hyphen_ffi_c : List Symbol :=
  [Symbol.hyphen_load, Symbol.hyphen_free, Symbol.hyphen_hyphenate2, Symbol.hyphen_hyphenate3]

/-- The functions exported by the wrapper sources in a build configuration, that is, the
functions with external linkage defined under an export marker (`FFI_EXPORT`,
`EMSCRIPTEN_KEEPALIVE`): `hyphen_ffi.c` includes `hyphen_ffi.h`, which under
`#ifdef __EMSCRIPTEN__` includes `web_helper.c` ahead of its own declarations. -/
def exportedFunctions (cfg : BuildConfig) : List Symbol :=
  (if cfg.emscripten then web_helper_c else []) ++ hyphen_ffi_c

/-- The four operations of the foreign-function boundary: load, free, hyphenate and
hyphenate_with_margins. -/
def boundaryOperations : List Symbol :=
  [Symbol.hyphen_load, Symbol.hyphen_free, Symbol.hyphen_hyphenate2, Symbol.hyphen_hyphenate3]

/-- The C types that occur in the declarations of the exported functions. -/
inductive CType where
  | void : CType
  | int : CType
  | char : CType
  | HyphenDict : CType
  | const (t : CType) : CType
  | ptr (t : CType) : CType
  deriving DecidableEq, Repr

/-- A function declaration: return type and the parameters, in order, each with its type and
name. -/
structure Prototype where
  ret : CType
  params : List (CType × String)
  deriving DecidableEq, Repr

/-- The declarations of `hyphen_ffi.h` (lines 26 to 46). -/
def hyphen_ffi_h : Symbol → Option Prototype
  | Symbol.hyphen_load => some
      { ret := CType.ptr CType.HyphenDict,
        params := [(CType.ptr (CType.const CType.char), "filename")] }
  | Symbol.hyphen_free => some
      { ret := CType.void, params := [(CType.ptr CType.HyphenDict, "dict")] }
  | Symbol.hyphen_hyphenate2 => some
      { ret := CType.int,
        params := [(CType.ptr CType.HyphenDict, "dict"),
          (CType.ptr (CType.const CType.char), "word"), (CType.int, "word_size"),
          (CType.ptr CType.char, "hyphens")] }
  | Symbol.hyphen_hyphenate3 => some
      { ret := CType.int,
        params := [(CType.ptr CType.HyphenDict, "dict"),
          (CType.ptr (CType.const CType.char), "word"), (CType.int, "word_size"),
          (CType.ptr CType.char, "hyphens"), (CType.int, "lhmin"), (CType.int, "rhmin"),
          (CType.int, "clhmin"), (CType.int, "crhmin")] }
  | Symbol.hyphen_dict_get_utf8 => none

/-- The heads of the definitions of `hyphen_ffi.c` (lines 9 to 45). -/
def hyphen_ffi_c_defs : Symbol → Option Prototype
  | Symbol.hyphen_load => some
      { ret := CType.ptr CType.HyphenDict,
        params := [(CType.ptr (CType.const CType.char), "filename")] }
  | Symbol.hyphen_free => some
      { ret := CType.void, params := [(CType.ptr CType.HyphenDict, "dict")] }
  | Symbol.hyphen_hyphenate2 => some
      { ret := CType.int,
        params := [(CType.ptr CType.HyphenDict, "dict"),
          (CType.ptr (CType.const CType.char), "word"), (CType.int, "word_size"),
          (CType.ptr CType.char, "hyphens")] }
  | Symbol.hyphen_hyphenate3 => some
      { ret := CType.int,
        params := [(CType.ptr CType.HyphenDict, "dict"),
          (CType.ptr (CType.const CType.char), "word"), (CType.int, "word_size"),
          (CType.ptr CType.char, "hyphens"), (CType.int, "lhmin"), (CType.int, "rhmin"),
          (CType.int, "clhmin"), (CType.int, "crhmin")] }
  | Symbol.hyphen_dict_get_utf8 => none

/-- The declarations of `force_link.c` (lines 5 to 13). -/
def force_link_c : Symbol → Option Prototype
  | Symbol.hyphen_load => some
      { ret := CType.ptr CType.void,
        params := [(CType.ptr (CType.const CType.char), "filename")] }
  | Symbol.hyphen_free => some
      { ret := CType.void, params := [(CType.ptr CType.void, "dict")] }
  | Symbol.hyphen_hyphenate2 => some
      { ret := CType.int,
        params := [(CType.ptr CType.void, "dict"),
          (CType.ptr (CType.const CType.char), "word"), (CType.int, "word_size"),
          (CType.ptr CType.char, "hyphens"), (CType.ptr CType.char, "hyphenated_word"),
          (CType.ptr (CType.ptr (CType.ptr CType.char)), "rep"),
          (CType.ptr (CType.ptr CType.int), "pos"), (CType.ptr (CType.ptr CType.int), "cut")] }
  | Symbol.hyphen_hyphenate3 => some
      { ret := CType.int,
        params := [(CType.ptr CType.void, "dict"),
          (CType.ptr (CType.const CType.char), "word"), (CType.int, "word_size"),
          (CType.ptr CType.char, "hyphens"), (CType.ptr CType.char, "hyphenated_word"),
          (CType.ptr (CType.ptr (CType.ptr CType.char)), "rep"),
          (CType.ptr (CType.ptr CType.int), "pos"), (CType.ptr (CType.ptr CType.int), "cut"),
          (CType.int, "lhmin"), (CType.int, "rhmin"), (CType.int, "clhmin"),
          (CType.int, "crhmin")] }
  | Symbol.hyphen_dict_get_utf8 => none

/-- The parameter names of a declaration, in order. -/
def paramNames (p : Option Prototype) : List String :=
  match p with
  | none => []
  | some q => q.params.map (fun x => x.2)

/-! ## Concrete instances -/

/-- A toy dictionary with the single pattern `1g2` (weight 1 in front of `g`, weight 2 behind
it), no exceptions, identity folding and default margins 2, 2, 2, 2. -/
def toyDict : HyphenDict :=
  { utf8 := 0, patterns := [{ letters := [103], weights := [1, 2] }], exceptions := [],
    fold := fun c => c, lhmin := 2, rhmin := 2, clhmin := 2, crhmin := 2 }

/-- A dictionary with the two overlapping patterns `a2b` and `3bc` and no exceptions: on a
word containing `abc` they bring weights 2 and 3 to the gap between `a` and `b`. -/
def overlapDict : HyphenDict :=
  { utf8 := 0,
    patterns := [{ letters := [97, 98], weights := [0, 2, 0] },
                 { letters := [98, 99], weights := [3, 0, 0] }],
    exceptions := [], fold := fun c => c, lhmin := 2, rhmin := 2, clhmin := 2, crhmin := 2 }

/-- The toy dictionary with one exception entry added, the word `logging` with no break at
all. -/
def exceptDict : HyphenDict :=
  { toyDict with
    exceptions := [{ word := [108, 111, 103, 103, 105, 110, 103],
                     mask := [false, false, false, false, false, false] }] }

/-- The word `logging`. -/
def logging : List Nat :=
  [108, 111, 103, 103, 105, 110, 103]

/-- The word `xabcx`. -/
def xabcx : List Nat :=
  [120, 97, 98, 99, 120]

/-- A world with `toyDict` loaded under handle 1, `overlapDict` under handle 2 and `exceptDict`
under handle 3, the word
`logging` at addresses 100 to 106, the word `xabcx` at addresses 300 to 304, and no live
heap block. -/
def demoWorld : World :=
  { bytes := fun a =>
      if 100 ≤ a ∧ a < 107 then logging.getD (a - 100) 0
      else if 300 ≤ a ∧ a < 305 then xabcx.getD (a - 300) 0
      else 0
    live := []
    dicts := fun h =>
      if h = 1 then some toyDict else if h = 2 then some overlapDict
      else if h = 3 then some exceptDict else none }

/-- The toy dictionary with one exception entry added, the word `into` with a break between
`n` and `t`. -/
def intoDict : HyphenDict :=
  { toyDict with
    exceptions := [{ word := [105, 110, 116, 111], mask := [false, true, false] }] }

/-- A dictionary of UTF-8 text with the single pattern `é1` (weight 1 behind `é`, code point
233), no exceptions, identity folding and default margins 2, 2, 2, 2. -/
def utf8Dict : HyphenDict :=
  { utf8 := 1, patterns := [{ letters := [233], weights := [0, 1] }], exceptions := [],
    fold := fun c => c, lhmin := 2, rhmin := 2, clhmin := 2, crhmin := 2 }

/-- The word `into`. -/
def into : List Nat :=
  [105, 110, 116, 111]

/-- The six bytes of the three-letter UTF-8 word `ééé`. -/
def eee : List Nat :=
  [195, 169, 195, 169, 195, 169]

/-- A world with `intoDict` loaded under handle 1 and `utf8Dict` under handle 2, the word
`into` at addresses 100 to 103, the bytes of `ééé` at addresses 300 to 305, and no live
heap block. -/
def secondWorld : World :=
  { bytes := fun a =>
      if 100 ≤ a ∧ a < 104 then into.getD (a - 100) 0
      else if 300 ≤ a ∧ a < 306 then eee.getD (a - 300) 0
      else 0
    live := []
    dicts := fun h => if h = 1 then some intoDict else if h = 2 then some utf8Dict else none }

/-- The state of a caller in `secondWorld` that has made no call yet. -/
def secondState : State :=
  { world := secondWorld, calls := [] }

/-- The state of a caller in `demoWorld` that has made no call yet. -/
def demoState : State :=
  { world := demoWorld, calls := [] }

/-- The engine of the design document with a loader that always fails and a release that
does nothing. -/
def demoEngine : Engine :=
  specEngine (fun w _ => (NULL, w)) (fun w _ => w)

/-- An engine that materialises hints whenever it is handed output locations for all of
`rep`, `pos` and `cut`: it then allocates three blocks and stores their addresses there. -/
def hintingEngine : Engine :=
  { hnj_hyphen_load := fun w _ => (NULL, w)
    hnj_hyphen_free := fun w _ => w
    hnj_hyphen_hyphenate2 := fun w _ _ _ _ _ rep pos cut =>
      match rep, pos, cut with
      | OutLoc.addr _, OutLoc.addr _, OutLoc.addr _ =>
          { result := 0, rep := 1000, pos := 2000, cut := 3000,
            world := { w with live := 1000 :: 2000 :: 3000 :: w.live } }
      | _, _, _ => { result := 0, rep := rep.value, pos := pos.value, cut := cut.value, world := w }
    hnj_hyphen_hyphenate3 := fun w _ _ _ _ _ rep pos cut _ _ _ _ =>
      match rep, pos, cut with
      | OutLoc.addr _, OutLoc.addr _, OutLoc.addr _ =>
          { result := 0, rep := 1000, pos := 2000, cut := 3000,
            world := { w with live := 1000 :: 2000 :: 3000 :: w.live } }
      | _, _, _ => { result := 0, rep := rep.value, pos := pos.value, cut := cut.value, world := w } }

/-! ## The wrappers over an arbitrary engine -/


/-- Releasing a block writes no memory. -/
theorem freeBlock_bytes (w : World) (p : Ptr) : (freeBlock w p).bytes = w.bytes := by
  unfold freeBlock
  split <;> rfl

/-- Releasing a block leaves the loaded dictionaries as they are. -/
theorem freeBlock_dicts (w : World) (p : Ptr) : (freeBlock w p).dicts = w.dicts := by
  unfold freeBlock
  split <;> rfl

/-- The blocks that are live after `free(p)`. -/
theorem mem_freeBlock_live (w : World) (p q : Ptr) :
    q ∈ (freeBlock w p).live ↔ q ∈ w.live ∧ (p = NULL ∨ q ≠ p) := by
  unfold freeBlock
  split
  · next h => simp [h]
  · next h => simp [List.mem_filter, h]

/-- Reading memory depends on the bytes only. -/
theorem readBytes_congr (w w' : World) (h : w.bytes = w'.bytes) (p : Ptr) (n : Nat) :
    readBytes w p n = readBytes w' p n := by
  unfold readBytes
  rw [h]

/-- The blocks that are live after `free(a); free(b); free(c)`. -/
theorem mem_free3_live (w : World) (a b c q : Ptr) :
    q ∈ (freeBlock (freeBlock (freeBlock w a) b) c).live ↔
      q ∈ w.live ∧ (q = NULL ∨ (q ≠ a ∧ q ≠ b ∧ q ≠ c)) := by
  simp only [mem_freeBlock_live]
  by_cases hq : q = NULL
  · subst hq
    have key : ∀ p : Ptr, p = NULL ∨ NULL ≠ p := fun p => by
      by_cases h : p = NULL
      · exact Or.inl h
      · exact Or.inr (Ne.symm h)
    constructor
    · rintro ⟨⟨⟨h, _⟩, _⟩, _⟩
      exact ⟨h, Or.inl rfl⟩
    · rintro ⟨h, _⟩
      exact ⟨⟨⟨h, key a⟩, key b⟩, key c⟩
  · constructor
    · rintro ⟨⟨⟨h, h1⟩, h2⟩, h3⟩
      refine ⟨h, Or.inr ⟨?_, ?_, ?_⟩⟩
      · rcases h1 with h1 | h1
        · exact fun hh => hq (hh.trans h1)
        · exact h1
      · rcases h2 with h2 | h2
        · exact fun hh => hq (hh.trans h2)
        · exact h2
      · rcases h3 with h3 | h3
        · exact fun hh => hq (hh.trans h3)
        · exact h3
    · rintro ⟨h, h' | ⟨h1, h2, h3⟩⟩
      · exact absurd h' hq
      · exact ⟨⟨⟨h, Or.inr h1⟩, Or.inr h2⟩, Or.inr h3⟩

/-- The world after `hyphen_hyphenate2` is the engine's, with `rep`, `pos`, `cut` released. -/
theorem hyphen_hyphenate2_world (E : Engine) (dict word : Ptr) (word_size : Int)
    (hyphens : Ptr) (s : State) :
    (hyphen_hyphenate2 E dict word word_size hyphens s).2.world
      = freeBlock (freeBlock (freeBlock
          (E.hnj_hyphen_hyphenate2 s.world dict word word_size hyphens NULL
            (OutLoc.addr NULL) (OutLoc.addr NULL) (OutLoc.addr NULL)).world
          (E.hnj_hyphen_hyphenate2 s.world dict word word_size hyphens NULL
            (OutLoc.addr NULL) (OutLoc.addr NULL) (OutLoc.addr NULL)).rep)
          (E.hnj_hyphen_hyphenate2 s.world dict word word_size hyphens NULL
            (OutLoc.addr NULL) (OutLoc.addr NULL) (OutLoc.addr NULL)).pos)
          (E.hnj_hyphen_hyphenate2 s.world dict word word_size hyphens NULL
            (OutLoc.addr NULL) (OutLoc.addr NULL) (OutLoc.addr NULL)).cut :=
  rfl

/-- The world after `hyphen_hyphenate3` is the engine's, with `rep`, `pos`, `cut` released. -/
theorem hyphen_hyphenate3_world (E : Engine) (dict word : Ptr) (word_size : Int)
    (hyphens : Ptr) (lhmin rhmin clhmin crhmin : Int) (s : State) :
    (hyphen_hyphenate3 E dict word word_size hyphens lhmin rhmin clhmin crhmin s).2.world
      = freeBlock (freeBlock (freeBlock
          (E.hnj_hyphen_hyphenate3 s.world dict word word_size hyphens NULL
            (OutLoc.addr NULL) (OutLoc.addr NULL) (OutLoc.addr NULL)
            lhmin rhmin clhmin crhmin).world
          (E.hnj_hyphen_hyphenate3 s.world dict word word_size hyphens NULL
            (OutLoc.addr NULL) (OutLoc.addr NULL) (OutLoc.addr NULL)
            lhmin rhmin clhmin crhmin).rep)
          (E.hnj_hyphen_hyphenate3 s.world dict word word_size hyphens NULL
            (OutLoc.addr NULL) (OutLoc.addr NULL) (OutLoc.addr NULL)
            lhmin rhmin clhmin crhmin).pos)
          (E.hnj_hyphen_hyphenate3 s.world dict word word_size hyphens NULL
            (OutLoc.addr NULL) (OutLoc.addr NULL) (OutLoc.addr NULL)
            lhmin rhmin clhmin crhmin).cut :=
  rfl

/-- The bytes of memory after `hyphen_hyphenate2` are those the engine call left. -/
theorem hyphen_hyphenate2_bytes (E : Engine) (dict word : Ptr) (word_size : Int)
    (hyphens : Ptr) (s : State) :
    (hyphen_hyphenate2 E dict word word_size hyphens s).2.world.bytes
      = (E.hnj_hyphen_hyphenate2 s.world dict word word_size hyphens NULL
          (OutLoc.addr NULL) (OutLoc.addr NULL) (OutLoc.addr NULL)).world.bytes := by
  rw [hyphen_hyphenate2_world, freeBlock_bytes, freeBlock_bytes, freeBlock_bytes]

/-- The bytes of memory after `hyphen_hyphenate3` are those the engine call left. -/
theorem hyphen_hyphenate3_bytes (E : Engine) (dict word : Ptr) (word_size : Int)
    (hyphens : Ptr) (lhmin rhmin clhmin crhmin : Int) (s : State) :
    (hyphen_hyphenate3 E dict word word_size hyphens lhmin rhmin clhmin crhmin s).2.world.bytes
      = (E.hnj_hyphen_hyphenate3 s.world dict word word_size hyphens NULL
          (OutLoc.addr NULL) (OutLoc.addr NULL) (OutLoc.addr NULL)
          lhmin rhmin clhmin crhmin).world.bytes := by
  rw [hyphen_hyphenate3_world, freeBlock_bytes, freeBlock_bytes, freeBlock_bytes]

/-- The dictionaries after `hyphen_hyphenate2` are those the engine call left. -/
theorem hyphen_hyphenate2_dicts (E : Engine) (dict word : Ptr) (word_size : Int)
    (hyphens : Ptr) (s : State) :
    (hyphen_hyphenate2 E dict word word_size hyphens s).2.world.dicts
      = (E.hnj_hyphen_hyphenate2 s.world dict word word_size hyphens NULL
          (OutLoc.addr NULL) (OutLoc.addr NULL) (OutLoc.addr NULL)).world.dicts := by
  rw [hyphen_hyphenate2_world, freeBlock_dicts, freeBlock_dicts, freeBlock_dicts]

/-- The dictionaries after `hyphen_hyphenate3` are those the engine call left. -/
theorem hyphen_hyphenate3_dicts (E : Engine) (dict word : Ptr) (word_size : Int)
    (hyphens : Ptr) (lhmin rhmin clhmin crhmin : Int) (s : State) :
    (hyphen_hyphenate3 E dict word word_size hyphens lhmin rhmin clhmin crhmin s).2.world.dicts
      = (E.hnj_hyphen_hyphenate3 s.world dict word word_size hyphens NULL
          (OutLoc.addr NULL) (OutLoc.addr NULL) (OutLoc.addr NULL)
          lhmin rhmin clhmin crhmin).world.dicts := by
  rw [hyphen_hyphenate3_world, freeBlock_dicts, freeBlock_dicts, freeBlock_dicts]

/-! ## The engine of the design document: pattern scan, margins, memory -/

/-- A merge step keeps the number of gaps. -/
theorem zipMax_length (xs ys : List Nat) : (zipMax xs ys).length = xs.length := by
  induction xs generalizing ys with
  | nil => simp [zipMax]
  | cons x xs ih =>
    cases ys with
    | nil => simp [zipMax]
    | cons y ys => simp [zipMax, ih]

/-- A merge step raises a gap's weight to the maximum of the old weight and the new one. -/
theorem zipMax_getD (xs ys : List Nat) (g : Nat) :
    (zipMax xs ys).getD g 0 = max (xs.getD g 0) (if g < xs.length then ys.getD g 0 else 0) := by
  induction xs generalizing ys g with
  | nil => simp [zipMax]
  | cons x xs ih =>
    cases ys with
    | nil => simp [zipMax]
    | cons y ys =>
      cases g with
      | zero => simp [zipMax]
      | succ g => simpa [zipMax] using ih ys g

/-- Merging a pattern's weights keeps the number of gaps. -/
theorem mergeAt_length (ws : List Nat) (k : Nat) (pw : List Nat) :
    (mergeAt ws k pw).length = ws.length := by
  induction k generalizing ws with
  | zero => simp [mergeAt, zipMax_length]
  | succ k ih =>
    cases ws with
    | nil => simp [mergeAt]
    | cons x ws => simp [mergeAt, ih]

/-- Merging a pattern's weights at offset `k` raises gap `g` to the maximum of its weight and
the weight the pattern carries for it. -/
theorem mergeAt_getD (ws : List Nat) (k : Nat) (pw : List Nat) (g : Nat) (hg : g < ws.length) :
    (mergeAt ws k pw).getD g 0
      = max (ws.getD g 0) (if k ≤ g then pw.getD (g - k) 0 else 0) := by
  induction k generalizing ws g with
  | zero =>
    rw [mergeAt, zipMax_getD]
    simp [hg]
  | succ k ih =>
    cases ws with
    | nil => simp at hg
    | cons x ws =>
      cases g with
      | zero => simp [mergeAt]
      | succ g =>
        have hg' : g < ws.length := by simpa using hg
        simpa [mergeAt] using ih ws g hg'

/-- The maximum over two lists of weights is the larger of the two maxima. -/
theorem maxWeight_append (xs ys : List Nat) :
    maxWeight (xs ++ ys) = max (maxWeight xs) (maxWeight ys) := by
  induction xs with
  | nil => simp [maxWeight]
  | cons x xs ih =>
    simp only [maxWeight, List.cons_append, List.foldr_cons] at ih ⊢
    rw [ih, max_assoc]

/-- Every weight of a list is at most the maximum. -/
theorem le_maxWeight (cs : List Nat) (c : Nat) (h : c ∈ cs) : c ≤ maxWeight cs := by
  induction cs with
  | nil => simp at h
  | cons x xs ih =>
    simp only [maxWeight, List.foldr_cons]
    rcases List.mem_cons.mp h with h | h
    · subst h; exact le_max_left _ _
    · exact le_trans (ih h) (le_max_right _ _)

/-- The maximum of a non-empty list of weights is one of them. -/
theorem maxWeight_mem (cs : List Nat) (h : cs ≠ []) : maxWeight cs ∈ cs := by
  induction cs with
  | nil => exact absurd rfl h
  | cons x xs ih =>
    simp only [maxWeight, List.foldr_cons]
    by_cases hx : xs = []
    · subst hx; simp
    · rcases le_total x (List.foldr max 0 xs) with hle | hle
      · rw [max_eq_right hle]; exact List.mem_cons_of_mem _ (ih hx)
      · rw [max_eq_left hle]; exact List.mem_cons_self _ _

/-- Scanning a pattern over a list of offsets keeps the number of gaps. -/
theorem scan_foldl_length (p : Pattern) (padded : List Nat) (ks : List Nat) (ws : List Nat) :
    (ks.foldl (fun acc k => if matchesAt p padded k then mergeAt acc k p.weights else acc)
      ws).length = ws.length := by
  induction ks generalizing ws with
  | nil => rfl
  | cons k ks ih =>
    rw [List.foldl_cons, ih]
    split
    · exact mergeAt_length _ _ _
    · rfl

/-- Scanning a pattern over a list of offsets raises gap `g` to the maximum of its weight and
the pattern's contributions from these offsets. -/
theorem scan_foldl_getD (p : Pattern) (padded : List Nat) (g : Nat) (ks : List Nat)
    (ws : List Nat) (hg : g < ws.length) :
    (ks.foldl (fun acc k => if matchesAt p padded k then mergeAt acc k p.weights else acc)
      ws).getD g 0
      = max (ws.getD g 0) (maxWeight (ks.filterMap
          (fun k => if matchesAt p padded k && decide (k ≤ g) then p.weights[g - k]?
            else none))) := by
  induction ks generalizing ws with
  | nil => simp [maxWeight]
  | cons k ks ih =>
    rw [List.foldl_cons, ih]
    · by_cases hm : matchesAt p padded k = true
      · by_cases hk : k ≤ g
        · rw [if_pos hm, mergeAt_getD _ _ _ _ hg, if_pos hk]
          cases hc : p.weights[g - k]? with
          | none =>
            have h0 : p.weights.getD (g - k) 0 = 0 := by
              rw [List.getD_eq_getElem?_getD, hc]; rfl
            rw [List.filterMap_cons_none (by simp [hm, hk, hc]), h0, Nat.max_zero]
          | some c =>
            have h0 : p.weights.getD (g - k) 0 = c := by
              rw [List.getD_eq_getElem?_getD, hc]; rfl
            rw [List.filterMap_cons_some (b := c) (by simp [hm, hk, hc]), h0]
            simp only [maxWeight, List.foldr_cons]
            rw [max_assoc]
        · rw [if_pos hm, mergeAt_getD _ _ _ _ hg, if_neg hk,
            List.filterMap_cons_none (by simp [hk]), Nat.max_zero]
      · rw [if_neg hm, List.filterMap_cons_none (by simp [hm])]
    · split
      · rw [mergeAt_length]; exact hg
      · exact hg

/-- Scanning a pattern keeps the number of gaps. -/
theorem scanPattern_length (padded ws : List Nat) (p : Pattern) :
    (scanPattern padded ws p).length = ws.length :=
  scan_foldl_length p padded _ ws

/-- Scanning a pattern raises gap `g` to the maximum of its weight and the pattern's
contributions. -/
theorem scanPattern_getD (padded ws : List Nat) (p : Pattern) (g : Nat) (hg : g < ws.length) :
    (scanPattern padded ws p).getD g 0
      = max (ws.getD g 0) (maxWeight (patternContributions p padded g)) :=
  scan_foldl_getD p padded g _ ws hg

/-- Scanning a list of patterns raises gap `g` to the maximum of its weight and all their
contributions. -/
theorem patterns_foldl_getD (padded : List Nat) (g : Nat) (ps : List Pattern) (ws : List Nat)
    (hg : g < ws.length) :
    (ps.foldl (scanPattern padded) ws).getD g 0
      = max (ws.getD g 0)
          (maxWeight (ps.flatMap (fun p => patternContributions p padded g))) := by
  induction ps generalizing ws with
  | nil => simp [maxWeight]
  | cons p ps ih =>
    rw [List.foldl_cons, ih _ (by rw [scanPattern_length]; exact hg),
      scanPattern_getD _ _ _ _ hg, List.flatMap_cons, maxWeight_append, max_assoc]

/-- The pattern scan is max-wins: the merged weight of a gap is the maximum of the
contributions to it. -/
theorem mergeWeights_getD (d : HyphenDict) (padded : List Nat) (g : Nat)
    (hg : g ≤ padded.length) :
    (mergeWeights d padded).getD g 0 = maxWeight (contributions d padded g) := by
  unfold mergeWeights contributions
  rw [patterns_foldl_getD padded g d.patterns _ (by simp; omega)]
  have hlt : g < padded.length + 1 := by omega
  simp [List.getD_eq_getElem?_getD, List.getElem?_replicate, hlt]

/-- Reading `n` bytes gives `n` bytes. -/
theorem readBytes_length (w : World) (p : Ptr) (n : Nat) : (readBytes w p n).length = n := by
  simp [readBytes]

/-- The byte found at offset `i` of a stored list is its entry `i`. -/
theorem writeBytes_bytes (w : World) (p : Ptr) (xs : List Nat) (i : Nat) (hi : i < xs.length) :
    (writeBytes w p xs).bytes (p + i) = xs.getD i 0 := by
  simp [writeBytes, hi]

/-- Reading back what was stored. -/
theorem readBytes_writeBytes (w : World) (p : Ptr) (xs : List Nat) (m : Nat)
    (hm : xs.length = m) : readBytes (writeBytes w p xs) p m = xs := by
  apply List.ext_getElem
  · rw [readBytes_length, hm]
  · intro i h1 h2
    rw [readBytes_length] at h1
    simp only [readBytes, List.getElem_map, List.getElem_range]
    rw [writeBytes_bytes _ _ _ _ h2, List.getD_eq_getElem?_getD, List.getElem?_eq_getElem h2]
    rfl

/-- Normalizing keeps the number of letters. -/
theorem normalize_length (d : HyphenDict) (word : List Nat) :
    (normalize d word).length = word.length := by
  simp [normalize]

/-- Reading memory gives the same bytes in two worlds that agree on the addresses read. -/
theorem readBytes_ext (w w' : World) (p : Ptr) (m : Nat)
    (h : ∀ j, j < m → w.bytes (p + j) = w'.bytes (p + j)) :
    readBytes w p m = readBytes w' p m := by
  unfold readBytes
  apply List.map_congr_left
  intro j hj
  exact h j (List.mem_range.mp hj)

/-- A byte behind the end of a stored list is as it was. -/
theorem writeBytes_bytes_of_not_lt (w : World) (p : Ptr) (xs : List Nat) (j : Nat)
    (hj : ¬ j < xs.length) : (writeBytes w p xs).bytes (p + j) = w.bytes (p + j) := by
  simp [writeBytes, hj]

/-- A break mask of a word with no exception entry has one flag fewer than the word has
letters. -/
theorem hyphenate_length (d : HyphenDict) (word : List Nat) (l r cl cr : Int)
    (hex : exceptionMask d (normalize d word) = none) :
    (hyphenate d word l r cl cr).length = word.length - 1 := by
  simp only [hyphenate, hex]
  simp [emitMask, enforceMargins, normalize]

/-- The weight of position `i` is the merged weight of gap `i + 2`. -/
theorem positionWeights_getD (d : HyphenDict) (w : List Nat) (i : Nat)
    (hi : i < w.length - 1) :
    (positionWeights d w).getD i 0 = (mergeWeights d (pad w)).getD (i + 2) 0 := by
  unfold positionWeights
  simp only [List.getD_eq_getElem?_getD, List.getElem?_map, List.getElem?_range hi,
    Option.map_some', Option.getD_some]

/-- The flag of position `i` of a word with no exception entry: the position passes the
margins and its weight is odd. -/
theorem hyphenate_getD (d : HyphenDict) (word : List Nat) (l r cl cr : Int) (i : Nat)
    (hex : exceptionMask d (normalize d word) = none) (hi : i < word.length - 1) :
    (hyphenate d word l r cl cr).getD i false
      = (marginOk (normalize d word) l r cl cr i
          && (positionWeights d (normalize d word)).getD i 0 % 2 == 1) := by
  have hi' : i < (normalize d word).length - 1 := by rw [normalize_length]; exact hi
  simp only [hyphenate, hex, emitMask, enforceMargins, List.getD_eq_getElem?_getD,
    List.map_map, List.getElem?_map, List.getElem?_range hi', Option.map_some',
    Option.getD_some, Function.comp_apply]
  cases marginOk (normalize d word) l r cl cr i <;> simp

/-- No position of a word shorter than `lhmin + rhmin` passes the margins. -/
theorem marginOk_of_short (w : List Nat) (l r cl cr : Int) (i : Nat)
    (h : (w.length : Int) < l + r) : marginOk w l r cl cr i = false := by
  unfold marginOk
  by_cases h1 : l ≤ (i : Int) + 1
  · have h2 : ¬ r ≤ (w.length : Int) - ((i : Int) + 1) := by omega
    simp [h2]
  · simp [h1]

/-- The break mask of a word shorter than `lhmin + rhmin` that has no exception entry is
all-suppressed. -/
theorem hyphenate_of_short (d : HyphenDict) (word : List Nat) (l r cl cr : Int)
    (hex : exceptionMask d (normalize d word) = none)
    (h : (word.length : Int) < l + r) :
    hyphenate d word l r cl cr = List.replicate (word.length - 1) false := by
  have hw : ((normalize d word).length : Int) < l + r := by rw [normalize_length]; exact h
  have hz : enforceMargins (normalize d word) l r cl cr (positionWeights d (normalize d word))
      = List.replicate (word.length - 1) 0 := by
    unfold enforceMargins
    rw [normalize_length]
    apply List.ext_getElem
    · simp
    · intro i h1 h2
      simp [marginOk_of_short _ l r cl cr _ hw]
  unfold hyphenate
  simp only [hex, hz, emitMask, List.map_replicate]
  rfl

/-- A word that has a letter decodes, to letters that normalize to `lettersAt`. -/
theorem lettersAt_ne_nil (w : World) (d : HyphenDict) (word : Ptr) (word_size : Int)
    (hne : lettersAt w d word word_size ≠ []) :
    ∃ letters, decodeLetters d (readBytes w word word_size.toNat) = some letters
      ∧ letters ≠ [] ∧ lettersAt w d word word_size = normalize d letters := by
  unfold lettersAt at hne ⊢
  cases hdec : decodeLetters d (readBytes w word word_size.toNat) with
  | none => rw [hdec] at hne; exact absurd rfl hne
  | some letters =>
    rw [hdec] at hne
    refine ⟨letters, rfl, ?_, rfl⟩
    intro hnil
    apply hne
    rw [hnil]
    rfl

/-- A word that has a letter has a positive size. -/
theorem word_size_pos_of_letters (w : World) (d : HyphenDict) (word : Ptr) (word_size : Int)
    (hne : lettersAt w d word word_size ≠ []) : 0 < word_size := by
  by_contra hle
  have h0 : word_size.toNat = 0 := by omega
  apply hne
  unfold lettersAt
  rw [h0]
  have hr : readBytes w word 0 = [] := rfl
  have hdec : decodeLetters d [] = some [] := by
    unfold decodeLetters
    split <;> rfl
  rw [hr, hdec]
  rfl

/-- On a loaded dictionary and a word that has a letter the engine of the design document
returns 0 and stores the break mask at `hyphens`. -/
theorem spec_hyphenate3_loaded (w : World) (d : HyphenDict) (dict word : Ptr) (word_size : Int)
    (hyphens hw : Ptr) (rep pos cut : OutLoc) (l r cl cr : Int) (letters : List Nat)
    (hd : w.dicts dict = some d)
    (hdec : decodeLetters d (readBytes w word word_size.toNat) = some letters)
    (hne : letters ≠ []) (h0 : 0 ≤ word_size) :
    (spec_hnj_hyphen_hyphenate3 w dict word word_size hyphens hw rep pos cut l r cl cr).result = 0
      ∧ (spec_hnj_hyphen_hyphenate3 w dict word word_size hyphens hw rep pos cut
          l r cl cr).world
        = writeBytes w hyphens ((hyphenate d letters l r cl cr).map flagByte) := by
  unfold spec_hnj_hyphen_hyphenate3
  rw [hd]
  have hneg : ¬ word_size < 0 := by omega
  have hemp : letters.isEmpty = false := by
    cases letters with
    | nil => exact absurd rfl hne
    | cons a t => rfl
  simp [hneg, hdec, hemp]

/-- A run of the engine of the design document either fails with code -1 and leaves the world
as it was, or returns 0 and stores a break mask at `hyphens`; which of the two, and the
mask, are determined by the dictionary and the bytes of the word. -/
theorem spec_hyphenate3_cases (w : World) (dict word : Ptr) (word_size : Int)
    (hyphens hw : Ptr) (rep pos cut : OutLoc) (l r cl cr : Int) :
    ((spec_hnj_hyphen_hyphenate3 w dict word word_size hyphens hw rep pos cut l r cl cr).result
          = -1
        ∧ (spec_hnj_hyphen_hyphenate3 w dict word word_size hyphens hw rep pos cut
            l r cl cr).world = w
        ∧ ∀ w' : World, w'.dicts dict = w.dicts dict →
            readBytes w' word word_size.toNat = readBytes w word word_size.toNat →
            (spec_hnj_hyphen_hyphenate3 w' dict word word_size hyphens hw rep pos cut
              l r cl cr).result = -1)
      ∨ ∃ xs : List Nat,
          (spec_hnj_hyphen_hyphenate3 w dict word word_size hyphens hw rep pos cut
            l r cl cr).result = 0
          ∧ (spec_hnj_hyphen_hyphenate3 w dict word word_size hyphens hw rep pos cut
            l r cl cr).world = writeBytes w hyphens xs
          ∧ ∀ w' : World, w'.dicts dict = w.dicts dict →
              readBytes w' word word_size.toNat = readBytes w word word_size.toNat →
              (spec_hnj_hyphen_hyphenate3 w' dict word word_size hyphens hw rep pos cut
                  l r cl cr).result = 0
                ∧ (spec_hnj_hyphen_hyphenate3 w' dict word word_size hyphens hw rep pos cut
                  l r cl cr).world = writeBytes w' hyphens xs := by
  cases hdw : w.dicts dict with
  | none =>
    refine Or.inl ⟨?_, ?_, ?_⟩
    · simp [spec_hnj_hyphen_hyphenate3, hdw]
    · simp [spec_hnj_hyphen_hyphenate3, hdw]
    · intro w' hd' _
      simp [spec_hnj_hyphen_hyphenate3, hd']
  | some d =>
    by_cases hneg : word_size < 0
    · refine Or.inl ⟨?_, ?_, ?_⟩
      · simp [spec_hnj_hyphen_hyphenate3, hdw, hneg]
      · simp [spec_hnj_hyphen_hyphenate3, hdw, hneg]
      · intro w' hd' _
        simp [spec_hnj_hyphen_hyphenate3, hd', hneg]
    · cases hdec : decodeLetters d (readBytes w word word_size.toNat) with
      | none =>
        refine Or.inl ⟨?_, ?_, ?_⟩
        · simp [spec_hnj_hyphen_hyphenate3, hdw, hneg, hdec]
        · simp [spec_hnj_hyphen_hyphenate3, hdw, hneg, hdec]
        · intro w' hd' hw'
          simp [spec_hnj_hyphen_hyphenate3, hd', hneg, hw', hdec]
      | some letters =>
        by_cases hemp : letters.isEmpty = true
        · refine Or.inl ⟨?_, ?_, ?_⟩
          · simp [spec_hnj_hyphen_hyphenate3, hdw, hneg, hdec, hemp]
          · simp [spec_hnj_hyphen_hyphenate3, hdw, hneg, hdec, hemp]
          · intro w' hd' hw'
            simp [spec_hnj_hyphen_hyphenate3, hd', hneg, hw', hdec, hemp]
        · refine Or.inr ⟨(hyphenate d letters l r cl cr).map flagByte, ?_, ?_, ?_⟩
          · simp [spec_hnj_hyphen_hyphenate3, hdw, hneg, hdec, hemp]
          · simp [spec_hnj_hyphen_hyphenate3, hdw, hneg, hdec, hemp]
          · intro w' hd' hw'
            constructor
            · simp [spec_hnj_hyphen_hyphenate3, hd', hneg, hw', hdec, hemp]
            · simp [spec_hnj_hyphen_hyphenate3, hd', hneg, hw', hdec, hemp]

/-- On a loaded dictionary `hyphenate` is `hyphenate_with_margins` at the dictionary's
default margins. -/
theorem spec_hyphenate2_loaded (w : World) (d : HyphenDict) (dict word : Ptr) (word_size : Int)
    (hyphens hw : Ptr) (rep pos cut : OutLoc)
    (hd : w.dicts dict = some d) :
    spec_hnj_hyphen_hyphenate2 w dict word word_size hyphens hw rep pos cut
      = spec_hnj_hyphen_hyphenate3 w dict word word_size hyphens hw rep pos cut
          d.lhmin d.rhmin d.clhmin d.crhmin := by
  unfold spec_hnj_hyphen_hyphenate2
  rw [hd]

/-! ## The claims -/

/-- C1: `hyphen_hyphenate2` returns exactly the integer that the engine call
`hnj_hyphen_hyphenate2(dict, word, word_size, hyphens, NULL, &rep, &pos, &cut)` returned, for
every engine, dictionary handle, word, size and buffer: it is 0 exactly when the engine
returned 0 and negative exactly when the engine returned a negative code; the three `free`
calls that follow the engine call do not change it. -/
theorem hyphen_hyphenate2_result_code (E : Engine) (dict word : Ptr) (word_size : Int)
    (hyphens : Ptr) (s : State) :
    (hyphen_hyphenate2 E dict word word_size hyphens s).1
        = (E.hnj_hyphen_hyphenate2 s.world dict word word_size hyphens NULL
            (OutLoc.addr NULL) (OutLoc.addr NULL) (OutLoc.addr NULL)).result
      ∧ ((hyphen_hyphenate2 E dict word word_size hyphens s).1 = 0
          ↔ (E.hnj_hyphen_hyphenate2 s.world dict word word_size hyphens NULL
              (OutLoc.addr NULL) (OutLoc.addr NULL) (OutLoc.addr NULL)).result = 0)
      ∧ ((hyphen_hyphenate2 E dict word word_size hyphens s).1 < 0
          ↔ (E.hnj_hyphen_hyphenate2 s.world dict word word_size hyphens NULL
              (OutLoc.addr NULL) (OutLoc.addr NULL) (OutLoc.addr NULL)).result < 0) :=
  ⟨rfl, Iff.rfl, Iff.rfl⟩

/-- C2: `hyphen_hyphenate3` makes one engine call, `hnj_hyphen_hyphenate3`, with the same dict,
word, word_size and hyphens and with the four margins forwarded unchanged in the order
lhmin, rhmin, clhmin, crhmin, and returns that call's result code; apart from the margins
it behaves as `hyphen_hyphenate2` does: it returns the same code and leaves the same world
as `hyphen_hyphenate2` over an engine whose `hnj_hyphen_hyphenate2` is this engine's
`hnj_hyphen_hyphenate3` at these margins. -/
theorem hyphen_hyphenate3_forwards_margins (E : Engine) (dict word : Ptr) (word_size : Int)
    (hyphens : Ptr) (lhmin rhmin clhmin crhmin : Int) (s : State) :
    (hyphen_hyphenate3 E dict word word_size hyphens lhmin rhmin clhmin crhmin s).2.calls
        = s.calls ++
          [Call.hnj_hyphen_hyphenate3 dict word word_size hyphens NULL
            (OutLoc.addr NULL) (OutLoc.addr NULL) (OutLoc.addr NULL) lhmin rhmin clhmin crhmin,
           Call.free (E.hnj_hyphen_hyphenate3 s.world dict word word_size hyphens NULL
            (OutLoc.addr NULL) (OutLoc.addr NULL) (OutLoc.addr NULL)
            lhmin rhmin clhmin crhmin).rep,
           Call.free (E.hnj_hyphen_hyphenate3 s.world dict word word_size hyphens NULL
            (OutLoc.addr NULL) (OutLoc.addr NULL) (OutLoc.addr NULL)
            lhmin rhmin clhmin crhmin).pos,
           Call.free (E.hnj_hyphen_hyphenate3 s.world dict word word_size hyphens NULL
            (OutLoc.addr NULL) (OutLoc.addr NULL) (OutLoc.addr NULL)
            lhmin rhmin clhmin crhmin).cut]
      ∧ (hyphen_hyphenate3 E dict word word_size hyphens lhmin rhmin clhmin crhmin s).1
        = (E.hnj_hyphen_hyphenate3 s.world dict word word_size hyphens NULL
            (OutLoc.addr NULL) (OutLoc.addr NULL) (OutLoc.addr NULL)
            lhmin rhmin clhmin crhmin).result
      ∧ (hyphen_hyphenate3 E dict word word_size hyphens lhmin rhmin clhmin crhmin s).1
        = (hyphen_hyphenate2
            { E with hnj_hyphen_hyphenate2 := fun w d wd n h hw rep pos cut =>
                E.hnj_hyphen_hyphenate3 w d wd n h hw rep pos cut lhmin rhmin clhmin crhmin }
            dict word word_size hyphens s).1
      ∧ (hyphen_hyphenate3 E dict word word_size hyphens lhmin rhmin clhmin crhmin s).2.world
        = (hyphen_hyphenate2
            { E with hnj_hyphen_hyphenate2 := fun w d wd n h hw rep pos cut =>
                E.hnj_hyphen_hyphenate3 w d wd n h hw rep pos cut lhmin rhmin clhmin crhmin }
            dict word word_size hyphens s).2.world := by
  refine ⟨?_, rfl, rfl, rfl⟩
  simp [hyphen_hyphenate3, call_hnj_hyphen_hyphenate3, call_free]

/-- C3: `hyphen_load` returns exactly the handle that `hnj_hyphen_load(filename)` produced, so
it is null if and only if the engine load returned null, and it makes that one call;
`hyphen_free` makes one call, `hnj_hyphen_free`, with exactly the handle it was given. -/
theorem hyphen_load_free_pass_through (E : Engine) (filename dict : Ptr) (s : State) :
    (hyphen_load E filename s).1 = (E.hnj_hyphen_load s.world filename).1
      ∧ ((hyphen_load E filename s).1 = NULL ↔ (E.hnj_hyphen_load s.world filename).1 = NULL)
      ∧ (hyphen_load E filename s).2.world = (E.hnj_hyphen_load s.world filename).2
      ∧ (hyphen_load E filename s).2.calls = s.calls ++ [Call.hnj_hyphen_load filename]
      ∧ (hyphen_free E dict s).calls = s.calls ++ [Call.hnj_hyphen_free dict]
      ∧ (hyphen_free E dict s).world = E.hnj_hyphen_free s.world dict :=
  ⟨rfl, Iff.rfl, rfl, rfl, rfl, rfl⟩

/-- C4: idempotence of the wrappers.  When the engine call is a function of its arguments and of
the dictionary and word they name, a second call of `hyphen_hyphenate2` (of
`hyphen_hyphenate3` with the same margins) on the same dictionary, word and word_size,
made in the state the first call left, returns the same result code and leaves the same
break mask at `hyphens` as the first: the wrappers carry nothing over between calls. -/
theorem hyphenate_twice_same (E : Engine) (dict word : Ptr) (word_size : Int) (hyphens : Ptr)
    (lhmin rhmin clhmin crhmin : Int) (s : State)
    (hfun : E.FunctionOfInputs)
    (hdict2 : (hyphen_hyphenate2 E dict word word_size hyphens s).2.world.dicts dict
      = s.world.dicts dict)
    (hword2 : readBytes (hyphen_hyphenate2 E dict word word_size hyphens s).2.world word
      word_size.toNat = readBytes s.world word word_size.toNat)
    (hdict3 : (hyphen_hyphenate3 E dict word word_size hyphens lhmin rhmin clhmin crhmin
      s).2.world.dicts dict = s.world.dicts dict)
    (hword3 : readBytes (hyphen_hyphenate3 E dict word word_size hyphens lhmin rhmin clhmin
      crhmin s).2.world word word_size.toNat = readBytes s.world word word_size.toNat) :
    ((hyphen_hyphenate2 E dict word word_size hyphens
          (hyphen_hyphenate2 E dict word word_size hyphens s).2).1
        = (hyphen_hyphenate2 E dict word word_size hyphens s).1
      ∧ readBytes (hyphen_hyphenate2 E dict word word_size hyphens
          (hyphen_hyphenate2 E dict word word_size hyphens s).2).2.world hyphens
            (word_size.toNat - 1)
        = readBytes (hyphen_hyphenate2 E dict word word_size hyphens s).2.world hyphens
            (word_size.toNat - 1))
    ∧ ((hyphen_hyphenate3 E dict word word_size hyphens lhmin rhmin clhmin crhmin
          (hyphen_hyphenate3 E dict word word_size hyphens lhmin rhmin clhmin crhmin s).2).1
        = (hyphen_hyphenate3 E dict word word_size hyphens lhmin rhmin clhmin crhmin s).1
      ∧ readBytes (hyphen_hyphenate3 E dict word word_size hyphens lhmin rhmin clhmin crhmin
          (hyphen_hyphenate3 E dict word word_size hyphens lhmin rhmin clhmin crhmin
            s).2).2.world hyphens (word_size.toNat - 1)
        = readBytes (hyphen_hyphenate3 E dict word word_size hyphens lhmin rhmin clhmin crhmin
            s).2.world hyphens (word_size.toNat - 1)) := by
  have h2 := (hfun (hyphen_hyphenate2 E dict word word_size hyphens s).2.world s.world
    dict word word_size hyphens NULL (OutLoc.addr NULL) (OutLoc.addr NULL) (OutLoc.addr NULL)
    hdict2 hword2).1
  have h3 := (hfun (hyphen_hyphenate3 E dict word word_size hyphens lhmin rhmin clhmin crhmin
    s).2.world s.world dict word word_size hyphens NULL (OutLoc.addr NULL) (OutLoc.addr NULL)
    (OutLoc.addr NULL) hdict3 hword3).2 lhmin rhmin clhmin crhmin
  refine ⟨⟨h2.1, ?_⟩, ⟨h3.1, ?_⟩⟩
  · apply readBytes_ext
    intro j hj
    rw [hyphen_hyphenate2_bytes E dict word word_size hyphens
      (hyphen_hyphenate2 E dict word word_size hyphens s).2]
    rcases h2.2 j hj with h | h
    · rw [h, hyphen_hyphenate2_bytes E dict word word_size hyphens s]
    · exact h
  · apply readBytes_ext
    intro j hj
    rw [hyphen_hyphenate3_bytes E dict word word_size hyphens lhmin rhmin clhmin crhmin
      (hyphen_hyphenate3 E dict word word_size hyphens lhmin rhmin clhmin crhmin s).2]
    rcases h3.2 j hj with h | h
    · rw [h, hyphen_hyphenate3_bytes E dict word word_size hyphens lhmin rhmin clhmin crhmin s]
    · exact h

/-- C5, as stated, fails in the Emscripten build: there `hyphen_ffi.h` includes `web_helper.c`,
and the exported functions are five, `hyphen_dict_get_utf8` being one that is none of the
four boundary operations. -/
theorem emscripten_exports_fifth_function :
    exportedFunctions { emscripten := true, win32 := false, cplusplus := false }
        = [Symbol.hyphen_dict_get_utf8, Symbol.hyphen_load, Symbol.hyphen_free,
            Symbol.hyphen_hyphenate2, Symbol.hyphen_hyphenate3]
      ∧ Symbol.hyphen_dict_get_utf8 ∉ boundaryOperations
      ∧ exportedFunctions { emscripten := true, win32 := false, cplusplus := false }
        ≠ boundaryOperations := by
  decide

/-- C5, amended: in every build configuration the wrapper sources export the four boundary
operations `hyphen_load`, `hyphen_free`, `hyphen_hyphenate2`, `hyphen_hyphenate3`; these
are all the exported functions unless `__EMSCRIPTEN__` is defined, and in the Emscripten
build exactly one more function is exported, `hyphen_dict_get_utf8` of `web_helper.c`. -/
theorem exported_functions_by_config (cfg : BuildConfig) :
    exportedFunctions cfg
        = (if cfg.emscripten then Symbol.hyphen_dict_get_utf8 :: boundaryOperations
           else boundaryOperations)
      ∧ (∀ f, f ∈ boundaryOperations → f ∈ exportedFunctions cfg)
      ∧ (∀ f, f ∈ exportedFunctions cfg →
          f ∈ boundaryOperations ∨ (cfg.emscripten = true ∧ f = Symbol.hyphen_dict_get_utf8)) := by
  rcases cfg with ⟨e, w, c⟩
  cases e <;> simp [exportedFunctions, boundaryOperations, hyphen_ffi_c, web_helper_c]

/-- C8, as stated, fails: `hyphen_hyphenate2` and `hyphen_hyphenate3` hand the engine output
locations for `rep`, `pos` and `cut` (the addresses of their three locals), so an engine
that materialises hints whenever it is given such locations does so on a call through
either wrapper, and the wrapper then releases three non-null blocks. -/
theorem wrappers_request_hints :
    ((hyphen_hyphenate2 hintingEngine 1 100 7 200 demoState).2.calls.any
        Call.requestsHints = true
      ∧ (hyphen_hyphenate2 hintingEngine 1 100 7 200 demoState).2.calls
        = [Call.hnj_hyphen_hyphenate2 1 100 7 200 NULL (OutLoc.addr NULL) (OutLoc.addr NULL)
            (OutLoc.addr NULL), Call.free 1000, Call.free 2000, Call.free 3000])
    ∧ ((hyphen_hyphenate3 hintingEngine 1 100 7 200 2 3 2 2 demoState).2.calls.any
        Call.requestsHints = true
      ∧ (hyphen_hyphenate3 hintingEngine 1 100 7 200 2 3 2 2 demoState).2.calls
        = [Call.hnj_hyphen_hyphenate3 1 100 7 200 NULL (OutLoc.addr NULL) (OutLoc.addr NULL)
            (OutLoc.addr NULL) 2 3 2 2, Call.free 1000, Call.free 2000, Call.free 3000]) := by
  decide

/-- C8, amended: on every call `hyphen_hyphenate2` and `hyphen_hyphenate3` pass the engine no
hyphenated-word buffer (`NULL`), but they do pass output locations for `rep`, `pos` and
`cut`, the addresses of three locals that hold `NULL`; nothing of `rep`, `pos` or `cut`
reaches the caller: the value returned is the engine's result code alone, and whatever
block the engine stored in these locals is no longer live on return. -/
theorem wrappers_discard_hints (E : Engine) (dict word : Ptr) (word_size : Int) (hyphens : Ptr)
    (lhmin rhmin clhmin crhmin : Int) (s : State) :
    ((hyphen_hyphenate2 E dict word word_size hyphens s).2.calls.drop s.calls.length).head?
        = some (Call.hnj_hyphen_hyphenate2 dict word word_size hyphens NULL
            (OutLoc.addr NULL) (OutLoc.addr NULL) (OutLoc.addr NULL))
      ∧ ((hyphen_hyphenate3 E dict word word_size hyphens lhmin rhmin clhmin crhmin
            s).2.calls.drop s.calls.length).head?
        = some (Call.hnj_hyphen_hyphenate3 dict word word_size hyphens NULL
            (OutLoc.addr NULL) (OutLoc.addr NULL) (OutLoc.addr NULL) lhmin rhmin clhmin crhmin)
      ∧ (hyphen_hyphenate2 E dict word word_size hyphens s).1
        = (E.hnj_hyphen_hyphenate2 s.world dict word word_size hyphens NULL
            (OutLoc.addr NULL) (OutLoc.addr NULL) (OutLoc.addr NULL)).result
      ∧ (hyphen_hyphenate3 E dict word word_size hyphens lhmin rhmin clhmin crhmin s).1
        = (E.hnj_hyphen_hyphenate3 s.world dict word word_size hyphens NULL
            (OutLoc.addr NULL) (OutLoc.addr NULL) (OutLoc.addr NULL)
            lhmin rhmin clhmin crhmin).result
      ∧ (∀ p, p ≠ NULL →
          p ∈ [(E.hnj_hyphen_hyphenate2 s.world dict word word_size hyphens NULL
                (OutLoc.addr NULL) (OutLoc.addr NULL) (OutLoc.addr NULL)).rep,
               (E.hnj_hyphen_hyphenate2 s.world dict word word_size hyphens NULL
                (OutLoc.addr NULL) (OutLoc.addr NULL) (OutLoc.addr NULL)).pos,
               (E.hnj_hyphen_hyphenate2 s.world dict word word_size hyphens NULL
                (OutLoc.addr NULL) (OutLoc.addr NULL) (OutLoc.addr NULL)).cut] →
          p ∉ (hyphen_hyphenate2 E dict word word_size hyphens s).2.world.live)
      ∧ (∀ p, p ≠ NULL →
          p ∈ [(E.hnj_hyphen_hyphenate3 s.world dict word word_size hyphens NULL
                (OutLoc.addr NULL) (OutLoc.addr NULL) (OutLoc.addr NULL)
                lhmin rhmin clhmin crhmin).rep,
               (E.hnj_hyphen_hyphenate3 s.world dict word word_size hyphens NULL
                (OutLoc.addr NULL) (OutLoc.addr NULL) (OutLoc.addr NULL)
                lhmin rhmin clhmin crhmin).pos,
               (E.hnj_hyphen_hyphenate3 s.world dict word word_size hyphens NULL
                (OutLoc.addr NULL) (OutLoc.addr NULL) (OutLoc.addr NULL)
                lhmin rhmin clhmin crhmin).cut] →
          p ∉ (hyphen_hyphenate3 E dict word word_size hyphens lhmin rhmin clhmin crhmin
                s).2.world.live) := by
  refine ⟨?_, ?_, rfl, rfl, ?_, ?_⟩
  · simp [hyphen_hyphenate2, call_hnj_hyphen_hyphenate2, call_free]
  · simp [hyphen_hyphenate3, call_hnj_hyphen_hyphenate3, call_free]
  · intro p hp hmem
    rw [hyphen_hyphenate2_world]
    rw [mem_free3_live]
    simp only [List.mem_cons, List.mem_singleton, List.not_mem_nil, or_false] at hmem
    rintro ⟨_, h | ⟨h1, h2, h3⟩⟩
    · exact hp h
    · rcases hmem with h | h | h
      · exact h1 h
      · exact h2 h
      · exact h3 h
  · intro p hp hmem
    rw [hyphen_hyphenate3_world]
    rw [mem_free3_live]
    simp only [List.mem_cons, List.mem_singleton, List.not_mem_nil, or_false] at hmem
    rintro ⟨_, h | ⟨h1, h2, h3⟩⟩
    · exact hp h
    · rcases hmem with h | h | h
      · exact h1 h
      · exact h2 h
      · exact h3 h

/-- C9: frame of the wrappers.  The engine is called in the caller's world; on return from
`hyphen_hyphenate2` or `hyphen_hyphenate3` every byte of memory (so the break mask at
`hyphens`, and the word) and every dictionary is exactly as the single engine call left
it; the calls the wrapper makes are that engine call followed by `free` of its locals
`rep`, `pos` and `cut`, each holding what the engine left in a variable that held `NULL`;
and the live blocks are the engine's, less the non-null ones among these three. -/
theorem wrappers_frame (E : Engine) (dict word : Ptr) (word_size : Int) (hyphens : Ptr)
    (lhmin rhmin clhmin crhmin : Int) (s : State) :
    ((hyphen_hyphenate2 E dict word word_size hyphens s).2.world.bytes
        = (E.hnj_hyphen_hyphenate2 s.world dict word word_size hyphens NULL
            (OutLoc.addr NULL) (OutLoc.addr NULL) (OutLoc.addr NULL)).world.bytes
      ∧ (hyphen_hyphenate2 E dict word word_size hyphens s).2.world.dicts
        = (E.hnj_hyphen_hyphenate2 s.world dict word word_size hyphens NULL
            (OutLoc.addr NULL) (OutLoc.addr NULL) (OutLoc.addr NULL)).world.dicts
      ∧ (∀ m, readBytes (hyphen_hyphenate2 E dict word word_size hyphens s).2.world hyphens m
        = readBytes (E.hnj_hyphen_hyphenate2 s.world dict word word_size hyphens NULL
            (OutLoc.addr NULL) (OutLoc.addr NULL) (OutLoc.addr NULL)).world hyphens m)
      ∧ (hyphen_hyphenate2 E dict word word_size hyphens s).2.calls
        = s.calls ++
          [Call.hnj_hyphen_hyphenate2 dict word word_size hyphens NULL
            (OutLoc.addr NULL) (OutLoc.addr NULL) (OutLoc.addr NULL),
           Call.free (E.hnj_hyphen_hyphenate2 s.world dict word word_size hyphens NULL
            (OutLoc.addr NULL) (OutLoc.addr NULL) (OutLoc.addr NULL)).rep,
           Call.free (E.hnj_hyphen_hyphenate2 s.world dict word word_size hyphens NULL
            (OutLoc.addr NULL) (OutLoc.addr NULL) (OutLoc.addr NULL)).pos,
           Call.free (E.hnj_hyphen_hyphenate2 s.world dict word word_size hyphens NULL
            (OutLoc.addr NULL) (OutLoc.addr NULL) (OutLoc.addr NULL)).cut]
      ∧ (∀ q, q ∈ (hyphen_hyphenate2 E dict word word_size hyphens s).2.world.live ↔
          q ∈ (E.hnj_hyphen_hyphenate2 s.world dict word word_size hyphens NULL
            (OutLoc.addr NULL) (OutLoc.addr NULL) (OutLoc.addr NULL)).world.live
          ∧ (q = NULL ∨
              (q ≠ (E.hnj_hyphen_hyphenate2 s.world dict word word_size hyphens NULL
                  (OutLoc.addr NULL) (OutLoc.addr NULL) (OutLoc.addr NULL)).rep
              ∧ q ≠ (E.hnj_hyphen_hyphenate2 s.world dict word word_size hyphens NULL
                  (OutLoc.addr NULL) (OutLoc.addr NULL) (OutLoc.addr NULL)).pos
              ∧ q ≠ (E.hnj_hyphen_hyphenate2 s.world dict word word_size hyphens NULL
                  (OutLoc.addr NULL) (OutLoc.addr NULL) (OutLoc.addr NULL)).cut))))
    ∧ ((hyphen_hyphenate3 E dict word word_size hyphens lhmin rhmin clhmin crhmin
          s).2.world.bytes
        = (E.hnj_hyphen_hyphenate3 s.world dict word word_size hyphens NULL
            (OutLoc.addr NULL) (OutLoc.addr NULL) (OutLoc.addr NULL)
            lhmin rhmin clhmin crhmin).world.bytes
      ∧ (hyphen_hyphenate3 E dict word word_size hyphens lhmin rhmin clhmin crhmin
          s).2.world.dicts
        = (E.hnj_hyphen_hyphenate3 s.world dict word word_size hyphens NULL
            (OutLoc.addr NULL) (OutLoc.addr NULL) (OutLoc.addr NULL)
            lhmin rhmin clhmin crhmin).world.dicts
      ∧ (∀ m, readBytes (hyphen_hyphenate3 E dict word word_size hyphens lhmin rhmin clhmin
          crhmin s).2.world hyphens m
        = readBytes (E.hnj_hyphen_hyphenate3 s.world dict word word_size hyphens NULL
            (OutLoc.addr NULL) (OutLoc.addr NULL) (OutLoc.addr NULL)
            lhmin rhmin clhmin crhmin).world hyphens m)
      ∧ (hyphen_hyphenate3 E dict word word_size hyphens lhmin rhmin clhmin crhmin s).2.calls
        = s.calls ++
          [Call.hnj_hyphen_hyphenate3 dict word word_size hyphens NULL
            (OutLoc.addr NULL) (OutLoc.addr NULL) (OutLoc.addr NULL) lhmin rhmin clhmin crhmin,
           Call.free (E.hnj_hyphen_hyphenate3 s.world dict word word_size hyphens NULL
            (OutLoc.addr NULL) (OutLoc.addr NULL) (OutLoc.addr NULL)
            lhmin rhmin clhmin crhmin).rep,
           Call.free (E.hnj_hyphen_hyphenate3 s.world dict word word_size hyphens NULL
            (OutLoc.addr NULL) (OutLoc.addr NULL) (OutLoc.addr NULL)
            lhmin rhmin clhmin crhmin).pos,
           Call.free (E.hnj_hyphen_hyphenate3 s.world dict word word_size hyphens NULL
            (OutLoc.addr NULL) (OutLoc.addr NULL) (OutLoc.addr NULL)
            lhmin rhmin clhmin crhmin).cut]
      ∧ (∀ q, q ∈ (hyphen_hyphenate3 E dict word word_size hyphens lhmin rhmin clhmin crhmin
            s).2.world.live ↔
          q ∈ (E.hnj_hyphen_hyphenate3 s.world dict word word_size hyphens NULL
            (OutLoc.addr NULL) (OutLoc.addr NULL) (OutLoc.addr NULL)
            lhmin rhmin clhmin crhmin).world.live
          ∧ (q = NULL ∨
              (q ≠ (E.hnj_hyphen_hyphenate3 s.world dict word word_size hyphens NULL
                  (OutLoc.addr NULL) (OutLoc.addr NULL) (OutLoc.addr NULL)
                  lhmin rhmin clhmin crhmin).rep
              ∧ q ≠ (E.hnj_hyphen_hyphenate3 s.world dict word word_size hyphens NULL
                  (OutLoc.addr NULL) (OutLoc.addr NULL) (OutLoc.addr NULL)
                  lhmin rhmin clhmin crhmin).pos
              ∧ q ≠ (E.hnj_hyphen_hyphenate3 s.world dict word word_size hyphens NULL
                  (OutLoc.addr NULL) (OutLoc.addr NULL) (OutLoc.addr NULL)
                  lhmin rhmin clhmin crhmin).cut)))) := by
  refine ⟨⟨hyphen_hyphenate2_bytes E dict word word_size hyphens s,
      hyphen_hyphenate2_dicts E dict word word_size hyphens s,
      fun m => readBytes_congr _ _ (hyphen_hyphenate2_bytes E dict word word_size hyphens s) _ _,
      ?_, ?_⟩,
    ⟨hyphen_hyphenate3_bytes E dict word word_size hyphens lhmin rhmin clhmin crhmin s,
      hyphen_hyphenate3_dicts E dict word word_size hyphens lhmin rhmin clhmin crhmin s,
      fun m => readBytes_congr _ _
        (hyphen_hyphenate3_bytes E dict word word_size hyphens lhmin rhmin clhmin crhmin s) _ _,
      ?_, ?_⟩⟩
  · simp [hyphen_hyphenate2, call_hnj_hyphen_hyphenate2, call_free]
  · intro q
    rw [hyphen_hyphenate2_world]
    exact mem_free3_live _ _ _ _ q
  · simp [hyphen_hyphenate3, call_hnj_hyphen_hyphenate3, call_free]
  · intro q
    rw [hyphen_hyphenate3_world]
    exact mem_free3_live _ _ _ _ q

/-- C10 fails on `force_link.c`: its declarations of `hyphen_hyphenate2` and
`hyphen_hyphenate3` have 8 and 12 parameters (the engine's `hyphenated_word`, `rep`, `pos`,
`cut` are inserted after `hyphens`), where `hyphen_ffi.h` and `hyphen_ffi.c`, which agree
with each other on all four functions, have 4 and 8. -/
theorem force_link_declarations_differ :
    (hyphen_ffi_h Symbol.hyphen_load = hyphen_ffi_c_defs Symbol.hyphen_load
      ∧ hyphen_ffi_h Symbol.hyphen_free = hyphen_ffi_c_defs Symbol.hyphen_free
      ∧ hyphen_ffi_h Symbol.hyphen_hyphenate2 = hyphen_ffi_c_defs Symbol.hyphen_hyphenate2
      ∧ hyphen_ffi_h Symbol.hyphen_hyphenate3 = hyphen_ffi_c_defs Symbol.hyphen_hyphenate3)
    ∧ paramNames (hyphen_ffi_h Symbol.hyphen_hyphenate2)
        = ["dict", "word", "word_size", "hyphens"]
    ∧ paramNames (force_link_c Symbol.hyphen_hyphenate2)
        = ["dict", "word", "word_size", "hyphens", "hyphenated_word", "rep", "pos", "cut"]
    ∧ paramNames (hyphen_ffi_h Symbol.hyphen_hyphenate3)
        = ["dict", "word", "word_size", "hyphens", "lhmin", "rhmin", "clhmin", "crhmin"]
    ∧ paramNames (force_link_c Symbol.hyphen_hyphenate3)
        = ["dict", "word", "word_size", "hyphens", "hyphenated_word", "rep", "pos", "cut",
            "lhmin", "rhmin", "clhmin", "crhmin"]
    ∧ force_link_c Symbol.hyphen_hyphenate2 ≠ hyphen_ffi_h Symbol.hyphen_hyphenate2
    ∧ force_link_c Symbol.hyphen_hyphenate3 ≠ hyphen_ffi_h Symbol.hyphen_hyphenate3 := by
  refine ⟨⟨rfl, rfl, rfl, rfl⟩, rfl, rfl, rfl, rfl, ?_, ?_⟩
  · intro h
    have h' := congrArg (fun p => (paramNames p).length) h
    simp [paramNames, force_link_c, hyphen_ffi_h] at h'
  · intro h
    have h' := congrArg (fun p => (paramNames p).length) h
    simp [paramNames, force_link_c, hyphen_ffi_h] at h'

/-- Two runs of `hyphenate_with_margins` of the design document's engine on the same dictionary
and word agree. -/
theorem spec_hyphenate3_sameOutcome (w w' : World) (dict word : Ptr) (word_size : Int)
    (hyphens hw : Ptr) (rep pos cut : OutLoc) (l r cl cr : Int) (m : Nat)
    (hd : w.dicts dict = w'.dicts dict)
    (hword : readBytes w word word_size.toNat = readBytes w' word word_size.toNat) :
    SameOutcome w
      (spec_hnj_hyphen_hyphenate3 w dict word word_size hyphens hw rep pos cut l r cl cr)
      (spec_hnj_hyphen_hyphenate3 w' dict word word_size hyphens hw rep pos cut l r cl cr)
      hyphens m := by
  rcases spec_hyphenate3_cases w dict word word_size hyphens hw rep pos cut l r cl cr with
    ⟨hr, hwd, hall⟩ | ⟨xs, hr, hwd, hall⟩
  · refine ⟨by rw [hr, hall w' hd.symm hword.symm], fun j _ => Or.inr ?_⟩
    rw [hwd]
  · obtain ⟨hr', hwd'⟩ := hall w' hd.symm hword.symm
    refine ⟨by rw [hr, hr'], fun j _ => ?_⟩
    rw [hwd, hwd']
    by_cases hj : j < xs.length
    · exact Or.inl (by rw [writeBytes_bytes _ _ _ _ hj, writeBytes_bytes _ _ _ _ hj])
    · exact Or.inr (writeBytes_bytes_of_not_lt _ _ _ _ hj)

/-- The engine of the design document satisfies `Engine.FunctionOfInputs`. -/
theorem specEngine_functionOfInputs (load : World → Ptr → Ptr × World)
    (release : World → Ptr → World) : (specEngine load release).FunctionOfInputs := by
  intro w w' dict word word_size hyphens hw rep pos cut hd hword
  refine ⟨?_, fun l r cl cr =>
    spec_hyphenate3_sameOutcome w w' dict word word_size hyphens hw rep pos cut l r cl cr _
      hd hword⟩
  show SameOutcome w
    (spec_hnj_hyphen_hyphenate2 w dict word word_size hyphens hw rep pos cut)
    (spec_hnj_hyphen_hyphenate2 w' dict word word_size hyphens hw rep pos cut) _ _
  cases hdw : w.dicts dict with
  | none =>
    have hdw' : w'.dicts dict = none := by rw [← hd]; exact hdw
    refine ⟨?_, fun j _ => Or.inr ?_⟩ <;> simp [spec_hnj_hyphen_hyphenate2, hdw, hdw']
  | some d =>
    have hdw' : w'.dicts dict = some d := by rw [← hd]; exact hdw
    rw [spec_hyphenate2_loaded w d dict word word_size hyphens hw rep pos cut hdw,
      spec_hyphenate2_loaded w' d dict word word_size hyphens hw rep pos cut hdw']
    exact spec_hyphenate3_sameOutcome w w' dict word word_size hyphens hw rep pos cut _ _ _ _ _
      hd hword

/-- The mask byte that the engine of the design document stores for position `i` of a word of
a loaded dictionary that has no exception entry. -/
theorem spec_hyphenate3_byte (w : World) (d : HyphenDict) (dict word : Ptr) (word_size : Int)
    (hyphens hw : Ptr) (rep pos cut : OutLoc) (l r cl cr : Int) (i : Nat)
    (hd : w.dicts dict = some d) (h0 : 0 ≤ word_size)
    (hex : exceptionMask d (lettersAt w d word word_size) = none)
    (hi : i + 1 < (lettersAt w d word word_size).length) :
    (spec_hnj_hyphen_hyphenate3 w dict word word_size hyphens hw rep pos cut
        l r cl cr).world.bytes (hyphens + i)
      = flagByte (marginOk (lettersAt w d word word_size) l r cl cr i
          && (positionWeights d (lettersAt w d word word_size)).getD i 0 % 2 == 1) := by
  have hne : lettersAt w d word word_size ≠ [] := by
    intro hnil
    rw [hnil] at hi
    simp at hi
  obtain ⟨letters, hdec, hlne, hla⟩ := lettersAt_ne_nil w d word word_size hne
  rw [hla] at hex hi ⊢
  rw [normalize_length] at hi
  rw [(spec_hyphenate3_loaded w d dict word word_size hyphens hw rep pos cut l r cl cr letters
    hd hdec hlne h0).2]
  have hlen : i < letters.length - 1 := by omega
  have hi2 : i < (hyphenate d letters l r cl cr).length := by
    rw [hyphenate_length d letters l r cl cr hex]; exact hlen
  have hi' : i < ((hyphenate d letters l r cl cr).map flagByte).length := by
    rw [List.length_map]; exact hi2
  have hg := hyphenate_getD d letters l r cl cr i hex hlen
  rw [List.getD_eq_getElem?_getD, List.getElem?_eq_getElem hi2] at hg
  rw [writeBytes_bytes _ _ _ _ hi', List.getD_eq_getElem?_getD, List.getElem?_map,
    List.getElem?_eq_getElem hi2]
  show flagByte _ = flagByte _
  exact congrArg flagByte hg

/-- The merged weight of position `i` of a word is the maximum of the weights contributed to
it. -/
theorem positionWeights_eq_maxWeight (d : HyphenDict) (w : List Nat) (i : Nat)
    (hi : i < w.length - 1) :
    (positionWeights d w).getD i 0 = maxWeight (contributions d (pad w) (i + 2)) := by
  rw [positionWeights_getD d w i hi]
  apply mergeWeights_getD
  simp only [pad, List.length_cons, List.length_append, List.length_nil]
  omega

/-- C6, as stated, fails on the engine of the design document.  A word shorter than
lhmin + rhmin need not get an all-suppressed mask: `into` (4 letters, lhmin = 2, rhmin = 3)
under a dictionary with the exception entry `in-to` gets the explicit mask of the entry,
with a permitted break between `n` and `t` (step 2 of the Hyphenator returns it directly).
Nor is every such call free of error: the empty word is shorter than 2 + 3 and is the
error EmptyWord, a negative result code. -/
theorem short_word_exception_or_empty :
    (readBytes secondWorld 100 4 = into
      ∧ lettersAt secondWorld intoDict 100 4 = into
      ∧ ((lettersAt secondWorld intoDict 100 4).length : Int) < 2 + 3
      ∧ (hyphen_hyphenate3 demoEngine 1 100 4 200 2 3 2 2 secondState).1 = 0
      ∧ readBytes (hyphen_hyphenate3 demoEngine 1 100 4 200 2 3 2 2 secondState).2.world 200 3
        = [flagByte false, flagByte true, flagByte false])
    ∧ (lettersAt secondWorld intoDict 100 0 = []
      ∧ ((lettersAt secondWorld intoDict 100 0).length : Int) < 2 + 3
      ∧ (hyphen_hyphenate3 demoEngine 1 100 0 200 2 3 2 2 secondState).1 = -1) := by
  decide

/-- C6, amended: for every loaded dictionary, all four margins and every word that has at least
one letter, has no exception entry in the dictionary and whose length in letters is less
than lhmin + rhmin, `hyphen_hyphenate3` (the engine being that of the design document)
returns result code 0 and leaves an all-suppressed break mask in `hyphens`: each of its
flags, one per inter-letter position, is the byte of a suppressed break, whatever patterns
of the dictionary match the word. -/
theorem short_word_all_suppressed (load : World → Ptr → Ptr × World)
    (release : World → Ptr → World) (d : HyphenDict) (dict word : Ptr) (word_size : Int)
    (hyphens : Ptr) (lhmin rhmin clhmin crhmin : Int) (s : State)
    (hd : s.world.dicts dict = some d)
    (hne : lettersAt s.world d word word_size ≠ [])
    (hex : exceptionMask d (lettersAt s.world d word word_size) = none)
    (hshort : ((lettersAt s.world d word word_size).length : Int) < lhmin + rhmin) :
    (hyphen_hyphenate3 (specEngine load release) dict word word_size hyphens
        lhmin rhmin clhmin crhmin s).1 = 0
      ∧ readBytes (hyphen_hyphenate3 (specEngine load release) dict word word_size hyphens
          lhmin rhmin clhmin crhmin s).2.world hyphens
            ((lettersAt s.world d word word_size).length - 1)
        = List.replicate ((lettersAt s.world d word word_size).length - 1)
            (flagByte false) := by
  have h0 : 0 ≤ word_size := le_of_lt (word_size_pos_of_letters s.world d word word_size hne)
  obtain ⟨letters, hdec, hlne, hla⟩ := lettersAt_ne_nil s.world d word word_size hne
  rw [hla] at hex hshort ⊢
  rw [normalize_length] at hshort ⊢
  obtain ⟨hr, hw⟩ := spec_hyphenate3_loaded s.world d dict word word_size hyphens NULL
    (OutLoc.addr NULL) (OutLoc.addr NULL) (OutLoc.addr NULL) lhmin rhmin clhmin crhmin letters
    hd hdec hlne h0
  refine ⟨hr, ?_⟩
  rw [readBytes_congr _ _ (hyphen_hyphenate3_bytes (specEngine load release) dict word
    word_size hyphens lhmin rhmin clhmin crhmin s)]
  show readBytes (spec_hnj_hyphen_hyphenate3 s.world dict word word_size hyphens NULL
    (OutLoc.addr NULL) (OutLoc.addr NULL) (OutLoc.addr NULL) lhmin rhmin clhmin crhmin).world
      hyphens (letters.length - 1) = _
  rw [hw, hyphenate_of_short d letters lhmin rhmin clhmin crhmin hex hshort,
    List.map_replicate]
  exact readBytes_writeBytes _ _ _ _ (by simp)

/-- C6, amended, at a 4-letter word with lhmin = 2 and rhmin = 3: the first four letters `logg`
of the word at address 100, under the toy dictionary whose pattern `1g2` puts an odd weight
between `o` and `g`; and at the three letters (six bytes) of `ééé` under a UTF-8
dictionary whose pattern puts an odd weight behind every `é`, with margins 2 and 2. -/
theorem short_word_all_suppressed_witness :
    ((hyphen_hyphenate3 demoEngine 1 100 4 200 2 3 2 2 demoState).1 = 0
      ∧ readBytes (hyphen_hyphenate3 demoEngine 1 100 4 200 2 3 2 2 demoState).2.world 200
          ((lettersAt demoState.world toyDict 100 4).length - 1)
        = List.replicate ((lettersAt demoState.world toyDict 100 4).length - 1)
            (flagByte false))
    ∧ ((lettersAt secondState.world utf8Dict 300 6).length = 3
      ∧ (hyphen_hyphenate3 demoEngine 2 300 6 400 2 2 2 2 secondState).1 = 0
      ∧ readBytes (hyphen_hyphenate3 demoEngine 2 300 6 400 2 2 2 2 secondState).2.world 400
          ((lettersAt secondState.world utf8Dict 300 6).length - 1)
        = List.replicate ((lettersAt secondState.world utf8Dict 300 6).length - 1)
            (flagByte false)) :=
  ⟨short_word_all_suppressed (fun w _ => (NULL, w)) (fun w _ => w) toyDict 1 100 4 200 2 3 2 2
      demoState rfl (by decide) (by decide) (by decide),
    by decide,
    short_word_all_suppressed (fun w _ => (NULL, w)) (fun w _ => w) utf8Dict 2 300 6 400
      2 2 2 2 secondState rfl (by decide) (by decide) (by decide)⟩

/-- C4 at the engine of the design document: `logging` is hyphenated twice under the toy
dictionary, the mask buffer at 200 not overlapping the word at 100. -/
theorem hyphenate_twice_same_witness :
    ((hyphen_hyphenate2 demoEngine 1 100 7 200
          (hyphen_hyphenate2 demoEngine 1 100 7 200 demoState).2).1
        = (hyphen_hyphenate2 demoEngine 1 100 7 200 demoState).1
      ∧ readBytes (hyphen_hyphenate2 demoEngine 1 100 7 200
          (hyphen_hyphenate2 demoEngine 1 100 7 200 demoState).2).2.world 200
            ((7 : Int).toNat - 1)
        = readBytes (hyphen_hyphenate2 demoEngine 1 100 7 200 demoState).2.world 200
            ((7 : Int).toNat - 1))
    ∧ ((hyphen_hyphenate3 demoEngine 1 100 7 200 2 3 2 2
          (hyphen_hyphenate3 demoEngine 1 100 7 200 2 3 2 2 demoState).2).1
        = (hyphen_hyphenate3 demoEngine 1 100 7 200 2 3 2 2 demoState).1
      ∧ readBytes (hyphen_hyphenate3 demoEngine 1 100 7 200 2 3 2 2
          (hyphen_hyphenate3 demoEngine 1 100 7 200 2 3 2 2 demoState).2).2.world 200
            ((7 : Int).toNat - 1)
        = readBytes (hyphen_hyphenate3 demoEngine 1 100 7 200 2 3 2 2 demoState).2.world 200
            ((7 : Int).toNat - 1)) :=
  hyphenate_twice_same demoEngine 1 100 7 200 2 3 2 2 demoState
    (specEngine_functionOfInputs _ _) rfl (by decide) rfl (by decide)

/-- C7, as stated, fails: an odd maximum does not make a position a permitted break.  Under the
toy dictionary (pattern `1g2`) the position between `n` and `g` of `logging` gets the single
contribution 1, yet with lhmin = 2 and rhmin = 3 (and with the default margins 2, 2) the
mask that `hyphen_hyphenate3` (`hyphen_hyphenate2`) leaves marks it suppressed, the
break having one letter behind it; and under a dictionary with an exception entry for
`logging` the position between `o` and `g`, inside the margins and of odd maximum 1, is
suppressed as well. -/
theorem odd_maximum_not_permitted :
    (readBytes demoWorld 100 7 = logging
      ∧ contributions toyDict (pad logging) (5 + 2) = [1]
      ∧ (mergeWeights toyDict (pad logging)).getD (5 + 2) 0 = 1
      ∧ (hyphen_hyphenate3 demoEngine 1 100 7 200 2 3 2 2 demoState).1 = 0
      ∧ (hyphen_hyphenate3 demoEngine 1 100 7 200 2 3 2 2 demoState).2.world.bytes (200 + 5)
        = flagByte false
      ∧ (hyphen_hyphenate2 demoEngine 1 100 7 200 demoState).1 = 0
      ∧ (hyphen_hyphenate2 demoEngine 1 100 7 200 demoState).2.world.bytes (200 + 5)
        = flagByte false)
    ∧ (contributions exceptDict (pad logging) (1 + 2) = [1]
      ∧ marginOk logging 2 2 2 2 1 = true
      ∧ (hyphen_hyphenate3 demoEngine 3 100 7 200 2 2 2 2 demoState).1 = 0
      ∧ (hyphen_hyphenate3 demoEngine 3 100 7 200 2 2 2 2 demoState).2.world.bytes (200 + 1)
        = flagByte false) := by
  decide

/-- C7, amended: for every word of a loaded dictionary that has no exception entry, hyphenated
through `hyphen_hyphenate3` or `hyphen_hyphenate2` (the engine being that of the design
document), the merged weight at each inter-letter position is the maximum of the weights
contributed there by the dictionary patterns matching a substring of the boundary-padded
word (0 when there is none), and the position is marked a permitted break exactly when
that maximum is odd and the position passes margin enforcement (the given margins for
`hyphen_hyphenate3`, the dictionary's defaults for `hyphen_hyphenate2`). -/
theorem max_wins_merge_then_margins (load : World → Ptr → Ptr × World)
    (release : World → Ptr → World) (d : HyphenDict) (dict word : Ptr) (word_size : Int)
    (hyphens : Ptr) (lhmin rhmin clhmin crhmin : Int) (s : State) (i : Nat)
    (hd : s.world.dicts dict = some d) (h0 : 0 ≤ word_size)
    (hex : exceptionMask d (lettersAt s.world d word word_size) = none)
    (hi : i + 1 < (lettersAt s.world d word word_size).length) :
    (mergeWeights d (pad (lettersAt s.world d word word_size))).getD (i + 2) 0
        = maxWeight (contributions d (pad (lettersAt s.world d word word_size)) (i + 2))
      ∧ (∀ c ∈ contributions d (pad (lettersAt s.world d word word_size)) (i + 2),
          c ≤ maxWeight (contributions d (pad (lettersAt s.world d word word_size)) (i + 2)))
      ∧ (contributions d (pad (lettersAt s.world d word word_size)) (i + 2) = []
          ∨ maxWeight (contributions d (pad (lettersAt s.world d word word_size)) (i + 2))
            ∈ contributions d (pad (lettersAt s.world d word word_size)) (i + 2))
      ∧ (hyphen_hyphenate3 (specEngine load release) dict word word_size hyphens
          lhmin rhmin clhmin crhmin s).2.world.bytes (hyphens + i)
        = flagByte (marginOk (lettersAt s.world d word word_size) lhmin rhmin clhmin crhmin i
            && maxWeight (contributions d (pad (lettersAt s.world d word word_size)) (i + 2))
                % 2 == 1)
      ∧ (hyphen_hyphenate2 (specEngine load release) dict word word_size hyphens
          s).2.world.bytes (hyphens + i)
        = flagByte (marginOk (lettersAt s.world d word word_size)
              d.lhmin d.rhmin d.clhmin d.crhmin i
            && maxWeight (contributions d (pad (lettersAt s.world d word word_size)) (i + 2))
                % 2 == 1) := by
  have hlen : i < (lettersAt s.world d word word_size).length - 1 := by omega
  have hpw := positionWeights_eq_maxWeight d _ i hlen
  refine ⟨?_, fun c hc => le_maxWeight _ c hc, ?_, ?_, ?_⟩
  · rw [← hpw, positionWeights_getD d _ i hlen]
  · by_cases hnil : contributions d (pad (lettersAt s.world d word word_size)) (i + 2) = []
    · exact Or.inl hnil
    · exact Or.inr (maxWeight_mem _ hnil)
  · rw [hyphen_hyphenate3_bytes, ← hpw]
    exact spec_hyphenate3_byte s.world d dict word word_size hyphens NULL _ _ _
      lhmin rhmin clhmin crhmin i hd h0 hex hi
  · rw [hyphen_hyphenate2_bytes, ← hpw]
    show (spec_hnj_hyphen_hyphenate2 s.world dict word word_size hyphens NULL
      (OutLoc.addr NULL) (OutLoc.addr NULL) (OutLoc.addr NULL)).world.bytes (hyphens + i) = _
    rw [spec_hyphenate2_loaded s.world d dict word word_size hyphens NULL _ _ _ hd]
    exact spec_hyphenate3_byte s.world d dict word word_size hyphens NULL _ _ _
      d.lhmin d.rhmin d.clhmin d.crhmin i hd h0 hex hi

/-- C7, amended, at two overlapping patterns: under the dictionary with patterns `a2b` and
`3bc` the gap between `a` and `b` of `xabcx` receives the contributions 2 and 3; the merged
weight is 3 and, the position lying inside the margins 2, 2, the break is permitted. -/
theorem max_wins_merge_then_margins_witness :
    contributions overlapDict (pad xabcx) (1 + 2) = [2, 3]
      ∧ maxWeight [2, 3] = 3
      ∧ (mergeWeights overlapDict (pad xabcx)).getD (1 + 2) 0 = 3
      ∧ (hyphen_hyphenate3 demoEngine 2 300 5 400 2 2 2 2 demoState).2.world.bytes (400 + 1)
        = flagByte true
      ∧ (hyphen_hyphenate2 demoEngine 2 300 5 400 demoState).2.world.bytes (400 + 1)
        = flagByte true := by
  have h := max_wins_merge_then_margins (fun w _ => (NULL, w)) (fun w _ => w) overlapDict
    2 300 5 400 2 2 2 2 demoState 1 rfl (by decide) (by decide) (by decide)
  have hl : lettersAt demoState.world overlapDict 300 5 = xabcx := by decide
  have hc : contributions overlapDict (pad xabcx) (1 + 2) = [2, 3] := by decide
  rw [hl, hc] at h
  refine ⟨hc, by decide, h.1.trans (by decide), h.2.2.2.1.trans (by decide),
    h.2.2.2.2.trans (by decide)⟩

end Hyphen
